import Mathlib

/-!
Shallow embedding of `RottenTomatoesCLIRawPython.py` (class `RottenTomatoesAPI`).

The program extracts movie facts from an HTML document with ad hoc regex
patterns plus a few BeautifulSoup queries.  Pure string work (regex searches,
`str.replace`, `str.strip`, `re.sub` cleanups, the fallback chains and their
`== "N/A"` guards) is translated directly; each matcher function carries the
regex it embeds in its doc comment, translated to the deterministic search the
pattern performs (leftmost `re.search` start, greedy/lazy quantifier behaviour
worked out per pattern).

The two BeautifulSoup collaborators (`soup.select_one(sel).get_text(strip=True)`
and `[p.get_text(strip=True) for p in soup.find_all('p')]`) and, on the listing
side, the per-item element queries are the external structural-query interface
of the spec (section 6); a `Doc` / `Item` carries their outputs as fields.
Network fetch and debug-file writes are outside the extraction core and are not
modelled.  All characters are treated at ASCII level (the patterns only use
ASCII literals).
-/

namespace RT

/-- Python regex `\s` class, also the default `str.strip` set. -/
def isWs (c : Char) : Bool :=
  c = ' ' || c = '\t' || c = '\n' || c = '\r' || c = '\x0b' || c = '\x0c'

/-- Python `str.strip()`. -/
def pyStrip (s : List Char) : List Char :=
  ((s.dropWhile isWs).reverse.dropWhile isWs).reverse

/-- Python `str.lower()` at ASCII level. -/
def lowerL (s : List Char) : List Char := s.map Char.toLower

/-- First-success choice: regex alternation of two whole-string searches,
and the sequential `if score == "N/A"` fallback shape. -/
def oOr {α} (a b : Option α) : Option α :=
  match a with
  | some x => some x
  | none => b

/-- Drop a case-sensitive literal prefix, returning the rest on success. -/
def dropLitCs : List Char → List Char → Option (List Char)
  | [], s => some s
  | _ :: _, [] => none
  | a :: as, c :: cs => if c = a then dropLitCs as cs else none

/-- Drop a case-insensitive literal prefix (the literal is given lowercase). -/
def dropLitCi : List Char → List Char → Option (List Char)
  | [], s => some s
  | _ :: _, [] => none
  | a :: as, c :: cs => if c.toLower = a then dropLitCi as cs else none

/-- Python `pat in s`: contiguous-substring test. -/
def hasSub (p : List Char) : List Char → Bool
  | [] => p.isPrefixOf []
  | c :: cs => p.isPrefixOf (c :: cs) || hasSub p cs

/-- Leftmost-match driver of `re.search`: try the position matcher on every
suffix, left to right. -/
def scanFirst {α} (p : List Char → Option α) : List Char → Option α
  | [] => p []
  | c :: cs =>
    match p (c :: cs) with
    | some r => some r
    | none => scanFirst p cs

/-- Rightmost-match driver, for a greedy `[^>]*` that backtracks from the
longest run (used by the score-board pattern). -/
def scanLast {α} (p : List Char → Option α) : List Char → Option α
  | [] => p []
  | c :: cs =>
    match scanLast p cs with
    | some r => some r
    | none => p (c :: cs)

/-- Greedy `(\d+)`: the maximal leading digit run, failing when empty. -/
def digitsOf (s : List Char) : Option (List Char) :=
  if s.takeWhile Char.isDigit = [] then none
  else some (s.takeWhile Char.isDigit)

/-- `re.sub(r'<...>', ' ', s)` worker.  `plusOne = true` embeds `<[^>]+>`
(at least one inner character), `false` embeds `<[^>]*>`.  A `<` is consumed
through the first following `>` when the tag body is admissible, otherwise
copied; the skip counter resumes the scan after the consumed tag. -/
def stripTagsGo (plusOne : Bool) : Nat → List Char → List Char
  | _, [] => []
  | k+1, _ :: cs => stripTagsGo plusOne k cs
  | 0, c :: cs =>
    if c = '<' then
      let run := cs.takeWhile (fun d => d ≠ '>')
      if run.length < cs.length ∧ (plusOne → run ≠ []) then
        ' ' :: stripTagsGo plusOne (run.length + 1) cs
      else c :: stripTagsGo plusOne 0 cs
    else c :: stripTagsGo plusOne 0 cs

/-- `re.sub(r'<[^>]*>', ' ', s)` (line 352 of the source). -/
def stripTagsStar (s : List Char) : List Char := stripTagsGo false 0 s

/-- `re.sub(r'<[^>]+>', ' ', s)` (lines 298 and 319 of the source). -/
def stripTagsPlus (s : List Char) : List Char := stripTagsGo true 0 s

/-- `re.sub(r'\s+', ' ', s)` worker; the flag records whether the previous
character was inside a whitespace run already replaced. -/
def collapseGo : Bool → List Char → List Char
  | _, [] => []
  | prevWs, c :: cs =>
    if isWs c then
      if prevWs then collapseGo true cs else ' ' :: collapseGo true cs
    else c :: collapseGo false cs

/-- `re.sub(r'\s+', ' ', s)`. -/
def collapseWs (s : List Char) : List Char := collapseGo false s

/-- Python `s.replace(p, r)` worker: leftmost occurrences of `p`, left to
right and non-overlapping, each replaced by `r`; the skip counter consumes
the matched occurrence.  (The `p ≠ []` guard is vacuous here: every pattern
passed is a nonempty entity literal.) -/
def replGo (p r : List Char) : Nat → List Char → List Char
  | _, [] => []
  | k+1, _ :: cs => replGo p r k cs
  | 0, c :: cs =>
    if p.isPrefixOf (c :: cs) ∧ p ≠ [] then r ++ replGo p r (p.length - 1) cs
    else c :: replGo p r 0 cs

/-- Python `s.replace(p, r)`. -/
def replAll (p r s : List Char) : List Char := replGo p r 0 s

def entNbsp : List Char := "&nbsp;".data
def entQuot : List Char := "&quot;".data
def entApos : List Char := ['&', '#', '3', '9', ';']
def entAmp : List Char := "&amp;".data

/-- Line 355: `.replace('&nbsp;', ' ').replace('&quot;', '"')
.replace('&#39;', "'").replace('&amp;', '&')`, applied in that order. -/
def decodeEntities (s : List Char) : List Char :=
  replAll entAmp "&".data
    (replAll entApos ['\'']
      (replAll entQuot "\"".data
        (replAll entNbsp " ".data s)))

/-- Numeric value of a digit string (for stating the range claims). -/
def digitsToNat (d : List Char) : Nat :=
  d.foldl (fun n c => 10 * n + (c.toNat - 48)) 0

/-! ### Detail document and title extraction (`get_movie_ratings`) -/

/-- A fetched detail page: the raw text plus the outputs of the two
structural-query collaborator calls the function makes. -/
structure Doc where
  /-- `response.text`. -/
  html : List Char
  /-- `soup.select_one(sel)` followed by `.get_text(strip=True)`; `none`
  when the selector matches no element. -/
  selText : String → Option (List Char)
  /-- `p.get_text(strip=True)` for each element of `soup.find_all('p')`. -/
  paragraphs : List (List Char)

/-- Position matcher of `<meta property="og:title" content="([^|]+)(?:\s*\|)?`
(line 134): the literal, then a nonempty maximal run of non-`|` characters as
the capture (the optional `\s*\|` tail does not affect the capture). -/
def metaTitleAt (s : List Char) : Option (List Char) :=
  (dropLitCs "<meta property=\"og:title\" content=\"".data s).bind fun r =>
    let run := r.takeWhile (fun c => c ≠ '|')
    if run = [] then none else some run

/-- Position matcher of the inner `"name":"([^"]+)"` of the schema title
pattern: nonempty non-quote run with a closing quote required. -/
def schemaNameAt (s : List Char) : Option (List Char) :=
  (dropLitCs "\"name\":\"".data s).bind fun r =>
    let run := r.takeWhile (fun c => c ≠ '"')
    if run ≠ [] ∧ run.length < r.length then some run else none

/-- `r'"@type":"Movie".*?"name":"([^"]+)"'` with `re.DOTALL` (line 142):
first `"@type":"Movie"` occurrence from which a later `"name":"..."` exists,
lazy `.*?` reaching the earliest such occurrence. -/
def schemaTitle (html : List Char) : Option (List Char) :=
  scanFirst (fun s => (dropLitCs "\"@type\":\"Movie\"".data s).bind (scanFirst schemaNameAt)) html

/-- Position matcher of `<title>([^|]+)(?:\s*\|)?` (line 149). -/
def titleTagAt (s : List Char) : Option (List Char) :=
  (dropLitCs "<title>".data s).bind fun r =>
    let run := r.takeWhile (fun c => c ≠ '|')
    if run = [] then none else some run

/-- Lines 123-152: meta title (stripped), else — when the title is still the
`"Unknown Title"` default — schema name (not stripped, as in line 145), else
the `<title>` tag (stripped). -/
def extractTitle (html : List Char) : List Char :=
  let t :=
    match scanFirst metaTitleAt html with
    | some cap => pyStrip cap
    | none => "Unknown Title".data
  if t = "Unknown Title".data then
    match schemaTitle html with
    | some cap => cap
    | none =>
      match scanFirst titleTagAt html with
      | some cap => pyStrip cap
      | none => t
  else t

/-! ### Critic score (lines 154-175) -/

/-- The `"?(\d+)"?` tail shared by the schema patterns: a quote is consumed
greedily when present; the fallback branch without the quote would place
`\d+` on the quote character and always fail, so the behaviour is
deterministic. -/
def optQuoteDigits (quotes : List Char) (r : List Char) : Option (List Char) :=
  match r with
  | c :: t => if quotes.contains c then digitsOf t else digitsOf r
  | [] => none

/-- The `["\']?\s*:\s*` middle of the JavaScript-style score patterns:
optional quote, whitespace, colon, whitespace.  Greedy `\s*` needs no
backtracking because `:` and the following quote are not whitespace. -/
def quoteColonTail (r : List Char) : Option (List Char) :=
  let r1 :=
    match r with
    | c :: t => if c = '"' ∨ c = '\'' then t else r
    | [] => r
  match r1.dropWhile isWs with
  | ':' :: t => some (t.dropWhile isWs)
  | _ => none

/-- Position matcher of the inner `"ratingValue":"?(\d+)"?` of the critic
schema pattern. -/
def ratingValueAt (s : List Char) : Option (List Char) :=
  (dropLitCs "\"ratingValue\":".data s).bind (optQuoteDigits ['"'])

/-- Line 156: `r'"aggregateRating".*?"ratingValue":"?(\d+)"?'` with
`re.DOTALL`. -/
def criticM1 (html : List Char) : Option (List Char) :=
  scanFirst (fun s => (dropLitCs "\"aggregateRating\"".data s).bind (scanFirst ratingValueAt)) html

/-- Position matcher of `(?:kw1|kw2|...)["\']?\s*:\s*["\']?(\d+)["\']?`
(case-insensitive); keyword alternatives are tried in order. -/
def kwColonDigitsAt (kws : List (List Char)) (s : List Char) : Option (List Char) :=
  kws.findSome? fun k => (dropLitCi k s).bind fun r =>
    (quoteColonTail r).bind (optQuoteDigits ['"', '\''])

/-- `(\d{1,3})%` at a position: a digit run of length 1-3 followed by `%`
(a longer run leaves a digit before the `%`, failing every greedy width). -/
def digitPctAt (s : List Char) : Option (List Char) :=
  if s.takeWhile Char.isDigit = [] ∨ 3 < (s.takeWhile Char.isDigit).length then none
  else
    match s.drop (s.takeWhile Char.isDigit).length with
    | '%' :: _ => some (s.takeWhile Char.isDigit)
    | _ => none

/-- Position matcher of `(?:critic|tomatometer).*?(\d{1,3})%`
(case-insensitive, no DOTALL, so the lazy `.*?` cannot cross a newline). -/
def criticPctAt (s : List Char) : Option (List Char) :=
  (oOr (dropLitCi "critic".data s) (dropLitCi "tomatometer".data s)).bind fun r =>
    scanFirst digitPctAt (r.takeWhile (fun c => c ≠ '\n'))

/-- `[^>]*>` after an opener: everything through the first following `>`,
failing when the document has no further `>`. -/
def afterGt (s : List Char) : Option (List Char) :=
  if (s.takeWhile (fun c => c ≠ '>')).length < s.length then
    some (s.drop ((s.takeWhile (fun c => c ≠ '>')).length + 1))
  else none

/-- Position matcher of `lit[^>]*>(\d+)%` (case-insensitive `lit`): the
literal, everything through the first following `>`, then digits and `%`. -/
def attrGtDigitsPctAt (lit : List Char) (s : List Char) : Option (List Char) :=
  (dropLitCi lit s).bind fun r =>
    (afterGt r).bind fun after =>
      (digitsOf after).bind fun d =>
        match after.drop d.length with
        | '%' :: _ => some d
        | _ => none

/-- Lines 163-175: the three fallback critic patterns, each searched over the
whole document in order, first match anywhere winning. -/
def criticM2 (html : List Char) : Option (List Char) :=
  oOr (scanFirst (kwColonDigitsAt ["tomatometer".data, "score".data]) html)
    (oOr (scanFirst criticPctAt html)
      (scanFirst (attrGtDigitsPctAt "data-qa=\"tomatometer\"".data) html))

/-- One `if value == "N/A": try the next method` fallback step, the guard
shape shared by the score and year chains. -/
def naStep (a : List Char) (m : Option (List Char)) : List Char :=
  if a = "N/A".data then
    match m with
    | some v => v
    | none => a
  else a

/-- Lines 154-175: schema `aggregateRating` first; the JavaScript patterns run
only while the score still equals the `"N/A"` sentinel. -/
def extractCriticScore (html : List Char) : List Char :=
  naStep
    (match criticM1 html with
      | some v => v
      | none => "N/A".data)
    (criticM2 html)

/-! ### Audience score (lines 177-224) -/

/-- Line 179: `r'"audience[sS]core":\s*"?(\d+)"?'` (case-sensitive except the
`[sS]` class), position matcher. -/
def audienceJsonAt (s : List Char) : Option (List Char) :=
  (dropLitCs "\"audience".data s).bind fun r =>
    match r with
    | c :: t =>
      if c = 's' ∨ c = 'S' then
        (dropLitCs "core\":".data t).bind fun r2 =>
          optQuoteDigits ['"'] (r2.dropWhile isWs)
      else none
    | [] => none

def audienceM1 (html : List Char) : Option (List Char) :=
  scanFirst audienceJsonAt html

/-- Line 187: `r'<score-board[^>]*audiencescore="(\d+)"'` (case-sensitive).
The greedy `[^>]*` backtracks from the longest run, so the rightmost
`audiencescore="(\d+)"` inside the maximal `>`-free run wins. -/
def scoreboardAt (s : List Char) : Option (List Char) :=
  (dropLitCs "<score-board".data s).bind fun r =>
    scanLast
      (fun t => (dropLitCs "audiencescore=\"".data t).bind fun r2 =>
        (digitsOf r2).bind fun d =>
          match r2.drop d.length with
          | '"' :: _ => some d
          | _ => none)
      (r.takeWhile (fun c => c ≠ '>'))

def audienceM2 (html : List Char) : Option (List Char) :=
  scanFirst scoreboardAt html

/-- Lines 194-206: the three popcorn patterns `lit[^>]*>(\d+)%`
(case-insensitive), in order. -/
def audienceM3 (html : List Char) : Option (List Char) :=
  oOr (scanFirst (attrGtDigitsPctAt "popcornmeter".data) html)
    (oOr (scanFirst (attrGtDigitsPctAt "popcornscore".data) html)
      (scanFirst (attrGtDigitsPctAt "audience-score".data) html))

/-- The lazy `[^%<>]*?(\d{1,3})%` tail of `audience[^%<>]*?(\d{1,3})%`: walk
forward over characters admissible in the class until `(\d{1,3})%` matches;
a `%`, `<` or `>` before that point kills the attempt at this keyword
occurrence. -/
def audiencePctWalk : List Char → Option (List Char)
  | [] => none
  | c :: cs =>
    match digitPctAt (c :: cs) with
    | some d => some d
    | none =>
      if c = '%' ∨ c = '<' ∨ c = '>' then none
      else audiencePctWalk cs

/-- Position matcher of `"audienceScore":"(\d+)"` (case-insensitive here,
since the method-4 loop passes `re.IGNORECASE`). -/
def audienceScoreJsonAt (s : List Char) : Option (List Char) :=
  (dropLitCi "\"audiencescore\":\"".data s).bind fun r =>
    (digitsOf r).bind fun d =>
      match r.drop d.length with
      | '"' :: _ => some d
      | _ => none

/-- Position matcher of `<span class="audience-score">(\d+)%</span>`
(case-insensitive). -/
def audienceSpanAt (s : List Char) : Option (List Char) :=
  (dropLitCi "<span class=\"audience-score\">".data s).bind fun r =>
    (digitsOf r).bind fun d =>
      (dropLitCi "%</span>".data (r.drop d.length)).map fun _ => d

/-- Lines 209-224: the five fallback audience patterns, in order. -/
def audienceM4 (html : List Char) : Option (List Char) :=
  oOr (scanFirst (kwColonDigitsAt ["audiencescore".data]) html)
    (oOr (scanFirst (fun s => (dropLitCi "audience".data s).bind audiencePctWalk) html)
      (oOr (scanFirst (attrGtDigitsPctAt "data-qa=\"audience-score\"".data) html)
        (oOr (scanFirst audienceScoreJsonAt html)
          (scanFirst audienceSpanAt html))))

/-- Lines 177-224: the four audience methods, each guarded by
`if audience_score == "N/A"`. -/
def extractAudienceScore (html : List Char) : List Char :=
  naStep
    (naStep
      (naStep
        (match audienceM1 html with
          | some v => v
          | none => "N/A".data)
        (audienceM2 html))
      (audienceM3 html))
    (audienceM4 html)

/-! ### Release year, detail page (lines 226-245) -/

/-- First window of four consecutive digits inside a run (`(?:[^"\']*?)(\d{4})`:
the lazy run skips to the earliest position where four digits start). -/
def first4DigitWindow : List Char → Option (List Char)
  | [] => none
  | c :: cs =>
    if ((c :: cs).take 4).length = 4 ∧ ((c :: cs).take 4).all Char.isDigit then
      some ((c :: cs).take 4)
    else first4DigitWindow cs

/-- Position matcher of
`(?:dateCreated|release)["\']?\s*:\s*["\']?(?:[^"\']*?)(\d{4})`
(case-insensitive).  The optional-quote / whitespace / colon middle is
deterministic (see `quoteColonTail`); the digits must lie inside the maximal
quote-free run after it. -/
def yearP1At (s : List Char) : Option (List Char) :=
  (oOr (dropLitCi "datecreated".data s) (dropLitCi "release".data s)).bind fun r =>
    (quoteColonTail r).bind fun t =>
      let t1 :=
        match t with
        | c :: tt => if c = '"' ∨ c = '\'' then tt else t
        | [] => t
      first4DigitWindow (t1.takeWhile (fun c => c ≠ '"' ∧ c ≠ '\''))

/-- `((?:19|20)\d{2})` at a position. -/
def year19or20At (s : List Char) : Option (List Char) :=
  match s with
  | c0 :: c1 :: c2 :: c3 :: _ =>
    if ((c0 = '1' ∧ c1 = '9') ∨ (c0 = '2' ∧ c1 = '0')) ∧ c2.isDigit ∧ c3.isDigit then
      some [c0, c1, c2, c3]
    else none
  | _ => none

/-- Position matcher of `(?:kws)[^<>\d]{1,20}((?:19|20)\d{2})`-shaped patterns
(case-insensitive).  The greedy bounded class cannot contain digits, so the
year group is forced to start at the first digit after the keyword and the
gap must be 1..maxGap admissible characters. -/
def kwGapYearAt (kws : List (List Char)) (maxGap : Nat) (s : List Char) : Option (List Char) :=
  kws.findSome? fun k => (dropLitCi k s).bind fun r =>
    let gap := r.takeWhile (fun c => ¬c.isDigit ∧ c ≠ '<' ∧ c ≠ '>')
    if 1 ≤ gap.length ∧ gap.length ≤ maxGap then
      year19or20At (r.drop gap.length)
    else none

/-- Lines 227-238: the three year patterns, searched in order with `break`. -/
def yearPatternChain (html : List Char) : Option (List Char) :=
  oOr (scanFirst yearP1At html)
    (oOr (scanFirst (kwGapYearAt ["release".data, "released".data, "year".data] 20) html)
      (scanFirst (kwGapYearAt ["movie".data, "film".data] 30) html))

/-- Lines 241-245: fallback `((?:19|20)\d{2})` over `html_content[:5000]`. -/
def yearFallback (html : List Char) : Option (List Char) :=
  scanFirst year19or20At (html.take 5000)

/-- Lines 226-245: pattern chain, then the first-5000-characters fallback
guarded by `if year == "N/A"`. -/
def extractYearDetail (html : List Char) : List Char :=
  naStep
    (match yearPatternChain html with
      | some v => v
      | none => "N/A".data)
    (yearFallback html)

/-! ### Critics consensus (lines 247-355) -/

/-- Line 252-259: the BeautifulSoup selector list of method 1. -/
def consensusSelectors : List String :=
  ["[data-qa=\"critics-consensus\"]", ".criticsconsensus", ".critic_consensus",
   ".what-to-know__consensus", ".consensus", "p.consensus"]

/-- Lines 261-270, method 1: first selector whose element text (stripped by
`get_text(strip=True)`) is longer than 20 characters; an element with shorter
text does not stop the loop. -/
def consensusM1 (doc : Doc) : Option (List Char) :=
  consensusSelectors.findSome? fun sel =>
    match doc.selText sel with
    | some t => if 20 < t.length then some t else none
    | none => none

/-- Position matcher of `"reviewBody":\s*"([^"]{20,})"` (line 275): at least
20 non-quote characters and a closing quote. -/
def reviewBodyAt (s : List Char) : Option (List Char) :=
  (dropLitCs "\"reviewBody\":".data s).bind fun r =>
    match r.dropWhile isWs with
    | '"' :: t =>
      let run := t.takeWhile (fun c => c ≠ '"')
      if 20 ≤ run.length ∧ run.length < t.length then some run else none
    | _ => none

/-- Lines 273-280, method 2: the schema `reviewBody` capture, stripped. -/
def consensusM2 (html : List Char) : Option (List Char) :=
  (scanFirst reviewBodyAt html).map pyStrip

/-- Lazy `(.*?)` capture up to the first case-insensitive occurrence of the
closing literal; the closer is required (no `$` alternative here). -/
def captureUntilCi (closer : List Char) : List Char → Option (List Char)
  | [] => none
  | c :: cs =>
    if (dropLitCi closer (c :: cs)).isSome then some []
    else (captureUntilCi closer cs).map (c :: ·)

/-- Position matcher of `<tag\s+class="[^"]*kw[^"]*"[^>]*>(.*?)closer`
(case-insensitive, DOTALL): tag literal, mandatory whitespace, a quoted class
value containing `kw`, the rest of the opening tag, then the lazy capture up
to the required closer. -/
def tagClassAt (tag kw closer : List Char) (s : List Char) : Option (List Char) :=
  (dropLitCi tag s).bind fun r =>
    let w := r.takeWhile isWs
    if w = [] then none
    else
      (dropLitCi "class=\"".data (r.drop w.length)).bind fun r2 =>
        let run := r2.takeWhile (fun c => c ≠ '"')
        if hasSub kw (lowerL run) ∧ run.length < r2.length then
          (afterGt (r2.drop (run.length + 1))).bind (captureUntilCi closer)
        else none

/-- Position matcher of `<span\s+data-qa="critics-consensus"[^>]*>(.*?)</span>`. -/
def spanDataQaAt (s : List Char) : Option (List Char) :=
  (dropLitCi "<span".data s).bind fun r =>
    let w := r.takeWhile isWs
    if w = [] then none
    else
      (dropLitCi "data-qa=\"critics-consensus\"".data (r.drop w.length)).bind fun r2 =>
        (afterGt r2).bind (captureUntilCi "</span>".data)

/-- Position matcher of `data-qa="critics-consensus"[^>]*>(.*?)</span>`. -/
def dataQaAt (s : List Char) : Option (List Char) :=
  (dropLitCi "data-qa=\"critics-consensus\"".data s).bind fun r =>
    (afterGt r).bind (captureUntilCi "</span>".data)

/-- Position matcher of `<p\s+class="consensus"[^>]*>(.*?)</p>` (exact class
value). -/
def pClassConsensusAt (s : List Char) : Option (List Char) :=
  (dropLitCi "<p".data s).bind fun r =>
    let w := r.takeWhile isWs
    if w = [] then none
    else
      (dropLitCi "class=\"consensus\"".data (r.drop w.length)).bind fun r2 =>
        (afterGt r2).bind (captureUntilCi "</p>".data)

/-- Lines 296-299 and 317-320: `group(1).strip()`, then
`re.sub(r'<[^>]+>', ' ', ...)`, then `re.sub(r'\s+', ' ', ...).strip()`. -/
def cleanCandidate (cap : List Char) : List Char :=
  pyStrip (collapseWs (stripTagsPlus (pyStrip cap)))

/-- Line 301 / 322 validation: longer than 20 characters and free of the
`class=` residue marker. -/
def consensusValid (c : List Char) : Bool :=
  decide (20 < c.length) && !hasSub "class=".data c

/-- Lines 283-305, method 3: the five marker regexes in order; each match is
cleaned and validated into a local variable, so a rejected candidate is
discarded (no leak into `consensus_text`). -/
def consensusM3 (html : List Char) : Option (List Char) :=
  [scanFirst (tagClassAt "<p".data "critic_consensus".data "</p>".data) html,
   scanFirst spanDataQaAt html,
   scanFirst (tagClassAt "<div".data "consensus".data "</div>".data) html,
   scanFirst dataQaAt html,
   scanFirst pClassConsensusAt html].findSome? fun m =>
    m.bind fun cap =>
      let c := cleanCandidate cap
      if consensusValid c then some c else none

/-- Lazy `(.*?)(?:</p>|</div>|<br|$)` capture of the method-4 patterns: up to
the first terminator, or to the end of the document (the `$` branch), so the
capture always exists once the opener matched. -/
def takeUntilTerms : List Char → List Char
  | [] => []
  | c :: cs =>
    if (dropLitCi "</p>".data (c :: cs)).isSome ∨ (dropLitCi "</div>".data (c :: cs)).isSome ∨
        (dropLitCi "<br".data (c :: cs)).isSome then []
    else c :: takeUntilTerms cs

/-- Position matcher of `Critics\s+Consensus:\s*(.*?)(?:</p>|</div>|<br|$)`
(case-insensitive, DOTALL). -/
def m4CriticsAt (s : List Char) : Option (List Char) :=
  (dropLitCi "critics".data s).bind fun r =>
    let w := r.takeWhile isWs
    if w = [] then none
    else
      (dropLitCi "consensus:".data (r.drop w.length)).map fun r2 =>
        takeUntilTerms (r2.dropWhile isWs)

/-- Position matcher of `Consensus:\s*(.*?)(?:</p>|</div>|<br|$)`. -/
def m4ConsensusAt (s : List Char) : Option (List Char) :=
  (dropLitCi "consensus:".data s).map fun r =>
    takeUntilTerms (r.dropWhile isWs)

/-- The method-4 loop body over the (already searched) pattern results.  The
source assigns the cleaned capture to `consensus_text` BEFORE validating it,
so a matching but rejected pattern overwrites the running text while leaving
`consensus_found` false, and the loop moves on. -/
def m4Chain : List (Option (List Char)) → List Char → List Char × Bool
  | [], t => (t, false)
  | none :: rest, t => m4Chain rest t
  | some cap :: rest, _ =>
    if consensusValid (cleanCandidate cap) then (cleanCandidate cap, true)
    else m4Chain rest (cleanCandidate cap)

/-- Lines 308-325, method 4: the two explicit patterns in order, threaded
through the `(consensus_text, consensus_found)` state. -/
def consensusM4 (html : List Char) (t : List Char) : List Char × Bool :=
  m4Chain [scanFirst m4CriticsAt html, scanFirst m4ConsensusAt html] t

/-- Lines 334-339: the method-5 paragraph filter — length in (30, 500), at
least one positive keyword, and neither negative keyword, all on the
lowercased text. -/
def consensusParagraphOk (t : List Char) : Bool :=
  let low := lowerL t
  decide (30 < t.length) && decide (t.length < 500) &&
  (hasSub "director".data low || hasSub "cinematic".data low ||
   hasSub "visually".data low || hasSub "narrative".data low ||
   hasSub "performance".data low || hasSub "ambitious".data low) &&
  !hasSub "subconscious".data low && !hasSub "mission".data low

/-- Lines 327-343, method 5: first paragraph passing the filter. -/
def consensusM5 (ps : List (List Char)) : Option (List Char) :=
  ps.find? consensusParagraphOk

/-- Line 348: `re.sub(r'^Critics\s+Consensus:?\s*', '', t, IGNORECASE)` —
strip the label prefix once at the start when it is present. -/
def stripCriticsLabel (t : List Char) : List Char :=
  match dropLitCi "critics".data t with
  | some r =>
    let w := r.takeWhile isWs
    if w = [] then t
    else
      match dropLitCi "consensus".data (r.drop w.length) with
      | some r2 =>
        let r3 :=
          match r2 with
          | ':' :: t2 => t2
          | _ => r2
        r3.dropWhile isWs
      | none => t
  | none => t

/-- Line 350: `'class=' in t or '<' in t or '>' in t`. -/
def hasMarkup (t : List Char) : Bool :=
  hasSub "class=".data t || t.contains '<' || t.contains '>'

/-- Lines 349-355: the conditional aggressive tag/whitespace cleanup followed
by the entity decode. -/
def normalizeConsensus (t : List Char) : List Char :=
  let t1 := if hasMarkup t then pyStrip (collapseWs (stripTagsStar t)) else t
  decodeEntities t1

/-- Lines 345-355: the whole `if consensus_found:` cleanup block. -/
def finalCleanup (t : List Char) : List Char :=
  normalizeConsensus (stripCriticsLabel t)

/-- Lines 247-343: the five consensus methods threaded through the
`(consensus_text, consensus_found)` state, including the method-5 re-entry
condition `not consensus_found or 'class=' in consensus_text`. -/
def consensusPipeline (doc : Doc) : List Char × Bool :=
  let st0 : List Char × Bool := ("No consensus yet.".data, false)
  let st1 :=
    match consensusM1 doc with
    | some x => (x, true)
    | none => st0
  let st2 :=
    if st1.2 then st1
    else
      match consensusM2 doc.html with
      | some x => (x, true)
      | none => st1
  let st3 :=
    if st2.2 then st2
    else
      match consensusM3 doc.html with
      | some x => (x, true)
      | none => st2
  let st4 := if st3.2 then st3 else consensusM4 doc.html st3.1
  if !st4.2 || hasSub "class=".data st4.1 then
    match consensusM5 doc.paragraphs with
    | some x => (x, true)
    | none => st4
  else st4

/-- The `consensus` value of the returned record: the pipeline state, with
the cleanup block applied only when `consensus_found` is set. -/
def consensusFinal (doc : Doc) : List Char :=
  let st := consensusPipeline doc
  if st.2 then finalCleanup st.1 else st.1

/-! ### The detail record (lines 123-128 and 375-382) -/

/-- The dictionary returned by `get_movie_ratings` on a fetched page. -/
structure DetailRecord where
  title : List Char
  year : List Char
  critic_score : List Char
  audience_score : List Char
  consensus : List Char
  url : List Char
deriving DecidableEq

/-- Lines 105-382 without the transport and debug-file I/O: build the record
from a fetched document.  Every field starts from its sentinel default and
extraction is total, so the record always exists. -/
def get_movie_ratings (doc : Doc) (movie_url : List Char) : DetailRecord :=
  { title := extractTitle doc.html
    year := extractYearDetail doc.html
    critic_score := extractCriticScore doc.html
    audience_score := extractAudienceScore doc.html
    consensus := consensusFinal doc
    url := movie_url }

/-! ### Listing extractor (`search_movie`, lines 16-103) -/

/-- One matched container of the search page, as the structural-query
collaborator exposes it: the raw `.text` of the title element (when one of
the two title selectors matched), the `href` of the url element (when
`select_one('a')` or `title_elem.parent` produced an element; the inner
option is `get('href', '')` returning no attribute), the raw `.text` of the
dedicated year element, and `str(item)`. -/
structure Item where
  titleRaw : Option (List Char)
  urlHref : Option (Option (List Char))
  yearElemRaw : Option (List Char)
  rawHtml : List Char

structure SummaryRecord where
  title : List Char
  year : List Char
  url : List Char
deriving DecidableEq

def base_url : List Char := "https://www.rottentomatoes.com".data

/-- Python `\w` at ASCII level, for the `\b` boundaries of the year pattern. -/
def isWordChar (c : Char) : Bool := c.isAlphanum || c = '_'

/-- A `\b` boundary against an adjacent character (none at the ends). -/
def boundaryOk (c : Option Char) : Bool :=
  match c with
  | some p => !isWordChar p
  | none => true

/-- `(\b(?:19|20)\d{2}\b)` at a position, given the previous character. -/
def boundedYearAt (prev : Option Char) (s : List Char) : Option (List Char) :=
  match s with
  | c0 :: c1 :: c2 :: c3 :: rest =>
    if boundaryOk prev ∧
        ((c0 = '1' ∧ c1 = '9') ∨ (c0 = '2' ∧ c1 = '0')) ∧ c2.isDigit ∧ c3.isDigit ∧
        boundaryOk rest.head? then
      some [c0, c1, c2, c3]
    else none
  | _ => none

/-- Line 77: `re.search(r'(\b(?:19|20)\d{2}\b)', item_html)`, tracking the
previous character for the left boundary. -/
def boundedYearScan (prev : Option Char) : List Char → Option (List Char)
  | [] => none
  | c :: cs =>
    match boundedYearAt prev (c :: cs) with
    | some r => some r
    | none => boundedYearScan (some c) cs

/-- Position matcher of `/m/[^/]*_(\d{4})(?:/|$)` (line 84): the greedy
`[^/]*` and the `/`-or-end terminator force `_` plus four digits to be the
last five characters of the maximal slash-free run after `/m/`. -/
def urlYearAt (s : List Char) : Option (List Char) :=
  (dropLitCs "/m/".data s).bind fun r =>
    let run := r.takeWhile (fun c => c ≠ '/')
    if 5 ≤ run.length then
      match run.drop (run.length - 5) with
      | '_' :: d => if d.length = 4 ∧ d.all Char.isDigit then some d else none
      | _ => none
    else none

/-- Line 90: `re.search(r'\((\d{4})\)$', title)` — the title ends in a
parenthesised four-digit group. -/
def titleYear (title : List Char) : Option (List Char) :=
  if 6 ≤ title.length then
    match title.drop (title.length - 6) with
    | '(' :: rest =>
      if (rest.take 4).length = 4 ∧ (rest.take 4).all Char.isDigit ∧ rest.drop 4 = [')'] then
        some (rest.take 4)
      else none
    | _ => none
  else none

/-- Lines 65-92: the four year methods of the listing extractor, methods 2-4
each guarded by `if year == "N/A"` (method 3 additionally by `'/m/' in url`). -/
def resolveItemYear (it : Item) (url title : List Char) : List Char :=
  let y1 :=
    match it.yearElemRaw with
    | some raw => pyStrip raw
    | none => "N/A".data
  let y2 := naStep y1 (boundedYearScan none it.rawHtml)
  let y3 :=
    if y2 = "N/A".data ∧ hasSub "/m/".data url then
      match scanFirst urlYearAt url with
      | some v => v
      | none => y2
    else y2
  naStep y3 (titleYear title)

/-- Lines 47-99: one container.  `continue` on a missing title element or
missing url element; `url = url_elem.get('href', '')`; the relative-url
rewrite `if url and not url.startswith('http')`. -/
def search_item (it : Item) : Option SummaryRecord :=
  match it.titleRaw with
  | none => none
  | some traw =>
    let title := pyStrip traw
    match it.urlHref with
    | none => none
    | some href =>
      let url0 := href.getD []
      let url :=
        if url0 ≠ [] ∧ !("http".data.isPrefixOf url0) then base_url ++ url0 else url0
      some { title := title, year := resolveItemYear it url title, url := url }

/-- Lines 16-103 without transport and debug I/O: the emitted summary
records, one per container that yields a title and a url element. -/
def search_movie (items : List Item) : List SummaryRecord :=
  items.filterMap search_item

/-- The adversarially empty detail page: no text, no selector hits, no
paragraphs. -/
def emptyDoc : Doc :=
  { html := [], selText := fun _ => none, paragraphs := [] }

/-! ### Generic facts about the search drivers -/

theorem oOr_eq_some {α} {a b : Option α} {r : α} (h : oOr a b = some r) :
    a = some r ∨ b = some r := by
  cases a with
  | some x => exact Or.inl (by simpa [oOr] using h)
  | none => exact Or.inr (by simpa [oOr] using h)

theorem scanFirst_prop {α} {Q : α → Prop} {p : List Char → Option α}
    (hp : ∀ s r, p s = some r → Q r) :
    ∀ s r, scanFirst p s = some r → Q r := by
  intro s
  induction s with
  | nil => exact fun r h => hp [] r h
  | cons c cs ih =>
    intro r h
    simp only [scanFirst] at h
    cases hpc : p (c :: cs) with
    | some x =>
      rw [hpc] at h
      have hx : x = r := by simpa using h
      exact hp (c :: cs) r (by rw [hpc, hx])
    | none =>
      rw [hpc] at h
      exact ih r h

theorem scanLast_prop {α} {Q : α → Prop} {p : List Char → Option α}
    (hp : ∀ s r, p s = some r → Q r) :
    ∀ s r, scanLast p s = some r → Q r := by
  intro s
  induction s with
  | nil => exact fun r h => hp [] r h
  | cons c cs ih =>
    intro r h
    simp only [scanLast] at h
    cases hsc : scanLast p cs with
    | some x =>
      rw [hsc] at h
      have hx : x = r := by simpa using h
      exact ih r (by rw [hsc, hx])
    | none =>
      rw [hsc] at h
      exact hp (c :: cs) r (by simpa using h)

theorem findSome?_prop {α β} {f : α → Option β} (Q : β → Prop)
    (hf : ∀ a r, f a = some r → Q r) :
    ∀ (l : List α) r, l.findSome? f = some r → Q r := by
  intro l r h
  obtain ⟨a, -, ha⟩ := List.exists_of_findSome?_eq_some h
  exact hf a r ha

/-! ### Score values are nonempty digit strings -/

/-- A nonempty all-digit string, the shape of every `(\d...)` capture. -/
def digitStr (d : List Char) : Prop := d ≠ [] ∧ d.all Char.isDigit = true

theorem digitsOf_digitStr {s d : List Char} (h : digitsOf s = some d) : digitStr d := by
  unfold digitsOf at h
  split at h
  · exact absurd h (by simp)
  · next hne =>
    injection h with h
    exact ⟨by rw [← h]; exact hne, by rw [← h]; exact List.all_takeWhile⟩

theorem optQuoteDigits_digitStr {q r d : List Char} (h : optQuoteDigits q r = some d) :
    digitStr d := by
  unfold optQuoteDigits at h
  split at h
  · split at h <;> exact digitsOf_digitStr h
  · exact absurd h (by simp)

theorem ratingValueAt_digitStr {s d : List Char} (h : ratingValueAt s = some d) : digitStr d := by
  unfold ratingValueAt at h
  cases hd : dropLitCs "\"ratingValue\":".data s with
  | none => rw [hd] at h; exact absurd h (by simp)
  | some r => rw [hd] at h; exact optQuoteDigits_digitStr h

theorem criticM1_digitStr {html d : List Char} (h : criticM1 html = some d) : digitStr d := by
  refine scanFirst_prop (fun s r hr => ?_) html d h
  cases ha : dropLitCs "\"aggregateRating\"".data s with
  | none => rw [ha] at hr; exact absurd hr (by simp)
  | some rest =>
    rw [ha] at hr
    exact scanFirst_prop (fun s2 r2 h2 => ratingValueAt_digitStr h2) rest r hr

theorem kwColonDigitsAt_digitStr {kws : List (List Char)} {s d : List Char}
    (h : kwColonDigitsAt kws s = some d) : digitStr d := by
  refine findSome?_prop digitStr (fun k r hk => ?_) kws d h
  cases h1 : dropLitCi k s with
  | none =>
    simp only [h1, Option.none_bind] at hk
    exact absurd hk (by simp)
  | some r1 =>
    simp only [h1, Option.some_bind] at hk
    cases h2 : quoteColonTail r1 with
    | none =>
      simp only [h2, Option.none_bind] at hk
      exact absurd hk (by simp)
    | some r2 =>
      simp only [h2, Option.some_bind] at hk
      exact optQuoteDigits_digitStr hk

theorem digitPctAt_digitStr {s d : List Char} (h : digitPctAt s = some d) : digitStr d := by
  unfold digitPctAt at h
  split at h
  · exact absurd h (by simp)
  · next hc =>
    push_neg at hc
    split at h
    · injection h with h
      exact ⟨by rw [← h]; exact hc.1, by rw [← h]; exact List.all_takeWhile⟩
    · exact absurd h (by simp)

theorem criticPctAt_digitStr {s d : List Char} (h : criticPctAt s = some d) : digitStr d := by
  unfold criticPctAt at h
  cases h1 : oOr (dropLitCi "critic".data s) (dropLitCi "tomatometer".data s) with
  | none => rw [h1] at h; exact absurd h (by simp)
  | some r =>
    simp only [h1, Option.some_bind] at h
    exact scanFirst_prop (fun s2 r2 h2 => digitPctAt_digitStr h2) _ d h

theorem attrGtDigitsPctAt_digitStr {lit s d : List Char}
    (h : attrGtDigitsPctAt lit s = some d) : digitStr d := by
  unfold attrGtDigitsPctAt at h
  cases h1 : dropLitCi lit s with
  | none => rw [h1] at h; exact absurd h (by simp)
  | some r =>
    simp only [h1, Option.some_bind] at h
    cases h2 : afterGt r with
    | none => rw [h2] at h; exact absurd h (by simp)
    | some after =>
      simp only [h2, Option.some_bind] at h
      cases h3 : digitsOf after with
      | none => rw [h3] at h; exact absurd h (by simp)
      | some d3 =>
        simp only [h3, Option.some_bind] at h
        split at h
        · injection h with h; rw [← h]; exact digitsOf_digitStr h3
        · exact absurd h (by simp)

theorem criticM2_digitStr {html d : List Char} (h : criticM2 html = some d) : digitStr d := by
  rcases oOr_eq_some h with h1 | h1
  · exact scanFirst_prop (fun s r hr => kwColonDigitsAt_digitStr hr) html d h1
  rcases oOr_eq_some h1 with h2 | h2
  · exact scanFirst_prop (fun s r hr => criticPctAt_digitStr hr) html d h2
  · exact scanFirst_prop (fun s r hr => attrGtDigitsPctAt_digitStr hr) html d h2

theorem audienceJsonAt_digitStr {s d : List Char} (h : audienceJsonAt s = some d) :
    digitStr d := by
  unfold audienceJsonAt at h
  cases h1 : dropLitCs "\"audience".data s with
  | none => rw [h1] at h; exact absurd h (by simp)
  | some r =>
    simp only [h1, Option.some_bind] at h
    split at h
    · split at h
      · cases h2 : dropLitCs "core\":".data _ with
        | none => rw [h2] at h; exact absurd h (by simp)
        | some r2 =>
          simp only [h2, Option.some_bind] at h
          exact optQuoteDigits_digitStr h
      · exact absurd h (by simp)
    · exact absurd h (by simp)

theorem scoreboardAt_digitStr {s d : List Char} (h : scoreboardAt s = some d) : digitStr d := by
  unfold scoreboardAt at h
  cases h1 : dropLitCs "<score-board".data s with
  | none => rw [h1] at h; exact absurd h (by simp)
  | some r =>
    simp only [h1, Option.some_bind] at h
    refine scanLast_prop (fun t r2 ht => ?_) _ d h
    cases h2 : dropLitCs "audiencescore=\"".data t with
    | none =>
      simp only [h2, Option.none_bind] at ht
      exact absurd ht (by simp)
    | some r3 =>
      simp only [h2, Option.some_bind] at ht
      cases h3 : digitsOf r3 with
      | none => rw [h3] at ht; exact absurd ht (by simp)
      | some d3 =>
        simp only [h3, Option.some_bind] at ht
        split at ht
        · injection ht with ht; rw [← ht]; exact digitsOf_digitStr h3
        · exact absurd ht (by simp)

theorem audiencePctWalk_digitStr {s d : List Char} (h : audiencePctWalk s = some d) :
    digitStr d := by
  induction s with
  | nil => exact absurd h (by simp [audiencePctWalk])
  | cons c cs ih =>
    simp only [audiencePctWalk] at h
    cases h1 : digitPctAt (c :: cs) with
    | some x =>
      rw [h1] at h
      have hx : x = d := by simpa using h
      rw [← hx]
      exact digitPctAt_digitStr h1
    | none =>
      rw [h1] at h
      have h2 : (if c = '%' ∨ c = '<' ∨ c = '>' then none else audiencePctWalk cs) = some d := h
      split at h2
      · exact absurd h2 (by simp)
      · exact ih h2

theorem audienceScoreJsonAt_digitStr {s d : List Char} (h : audienceScoreJsonAt s = some d) :
    digitStr d := by
  unfold audienceScoreJsonAt at h
  cases h1 : dropLitCi "\"audiencescore\":\"".data s with
  | none => rw [h1] at h; exact absurd h (by simp)
  | some r =>
    simp only [h1, Option.some_bind] at h
    cases h2 : digitsOf r with
    | none => rw [h2] at h; exact absurd h (by simp)
    | some d2 =>
      simp only [h2, Option.some_bind] at h
      split at h
      · injection h with h; rw [← h]; exact digitsOf_digitStr h2
      · exact absurd h (by simp)

theorem audienceSpanAt_digitStr {s d : List Char} (h : audienceSpanAt s = some d) :
    digitStr d := by
  unfold audienceSpanAt at h
  cases h1 : dropLitCi "<span class=\"audience-score\">".data s with
  | none => rw [h1] at h; exact absurd h (by simp)
  | some r =>
    simp only [h1, Option.some_bind] at h
    cases h2 : digitsOf r with
    | none => rw [h2] at h; exact absurd h (by simp)
    | some d2 =>
      simp only [h2, Option.some_bind] at h
      cases h3 : dropLitCi "%</span>".data (r.drop d2.length) with
      | none => rw [h3] at h; exact absurd h (by simp)
      | some r3 =>
        simp only [h3, Option.map_some] at h
        injection h with h
        rw [← h]
        exact digitsOf_digitStr h2

theorem audienceM1_digitStr {html d : List Char} (h : audienceM1 html = some d) : digitStr d :=
  scanFirst_prop (fun _s _r hr => audienceJsonAt_digitStr hr) html d h

theorem audienceM2_digitStr {html d : List Char} (h : audienceM2 html = some d) : digitStr d :=
  scanFirst_prop (fun _s _r hr => scoreboardAt_digitStr hr) html d h

theorem audienceM3_digitStr {html d : List Char} (h : audienceM3 html = some d) : digitStr d := by
  rcases oOr_eq_some h with h1 | h1
  · exact scanFirst_prop (fun s r hr => attrGtDigitsPctAt_digitStr hr) html d h1
  rcases oOr_eq_some h1 with h2 | h2
  · exact scanFirst_prop (fun s r hr => attrGtDigitsPctAt_digitStr hr) html d h2
  · exact scanFirst_prop (fun s r hr => attrGtDigitsPctAt_digitStr hr) html d h2

theorem audienceM4_digitStr {html d : List Char} (h : audienceM4 html = some d) : digitStr d := by
  rcases oOr_eq_some h with h1 | h1
  · exact scanFirst_prop (fun s r hr => kwColonDigitsAt_digitStr hr) html d h1
  rcases oOr_eq_some h1 with h2 | h2
  · refine scanFirst_prop (fun s r hr => ?_) html d h2
    cases ha : dropLitCi "audience".data s with
    | none => rw [ha] at hr; exact absurd hr (by simp)
    | some rest => rw [ha] at hr; exact audiencePctWalk_digitStr hr
  rcases oOr_eq_some h2 with h3 | h3
  · exact scanFirst_prop (fun s r hr => attrGtDigitsPctAt_digitStr hr) html d h3
  rcases oOr_eq_some h3 with h4 | h4
  · exact scanFirst_prop (fun s r hr => audienceScoreJsonAt_digitStr hr) html d h4
  · exact scanFirst_prop (fun s r hr => audienceSpanAt_digitStr hr) html d h4

/-- A nonempty digit string is never the `"N/A"` sentinel. -/
theorem digitStr_ne_na {d : List Char} (h : digitStr d) : d ≠ "N/A".data := by
  intro he
  rcases h with ⟨-, hall⟩
  rw [he] at hall
  simp [List.all_cons] at hall

/-- A fallback step keeps any value that is not the sentinel. -/
theorem naStep_ne {a : List Char} {m : Option (List Char)} (h : a ≠ "N/A".data) :
    naStep a m = a := if_neg h

/-- A fallback step preserves "sentinel or good" when the tried method only
produces good values. -/
theorem naStep_shape {a : List Char} {m : Option (List Char)} (Q : List Char → Prop)
    (ha : a = "N/A".data ∨ Q a) (hm : ∀ v, m = some v → Q v) :
    naStep a m = "N/A".data ∨ Q (naStep a m) := by
  unfold naStep
  split
  · next hc =>
    cases hm1 : m with
    | some v => exact Or.inr (hm v hm1)
    | none => exact Or.inl hc
  · next hc =>
    rcases ha with h | h
    · exact absurd h hc
    · exact Or.inr h

theorem extractCriticScore_m1 {html v : List Char} (h : criticM1 html = some v) :
    extractCriticScore html = v := by
  unfold extractCriticScore
  rw [h]
  exact naStep_ne (digitStr_ne_na (criticM1_digitStr h))

theorem extractAudienceScore_m1 {html v : List Char} (h : audienceM1 html = some v) :
    extractAudienceScore html = v := by
  unfold extractAudienceScore
  rw [h]
  have hne : v ≠ "N/A".data := digitStr_ne_na (audienceM1_digitStr h)
  have e1 : naStep v (audienceM2 html) = v := naStep_ne hne
  rw [e1, naStep_ne hne, naStep_ne hne]

theorem extractCriticScore_shape (html : List Char) :
    extractCriticScore html = "N/A".data ∨ digitStr (extractCriticScore html) := by
  unfold extractCriticScore
  refine naStep_shape digitStr ?_ ?_
  · cases h1 : criticM1 html with
    | some v => exact Or.inr (criticM1_digitStr h1)
    | none => exact Or.inl rfl
  · exact fun v hv => criticM2_digitStr hv

theorem extractAudienceScore_shape (html : List Char) :
    extractAudienceScore html = "N/A".data ∨ digitStr (extractAudienceScore html) := by
  unfold extractAudienceScore
  refine naStep_shape digitStr
    (naStep_shape digitStr
      (naStep_shape digitStr ?_ fun v hv => audienceM2_digitStr hv)
      fun v hv => audienceM3_digitStr hv)
    fun v hv => audienceM4_digitStr hv
  cases h1 : audienceM1 html with
  | some v => exact Or.inr (audienceM1_digitStr h1)
  | none => exact Or.inl rfl

/-! ### The fallback chains are first-success over the strategy order -/

/-- First-success over an ordered list of strategy results: the value of the
earliest strategy that produced one. -/
def firstSome (ms : List (Option (List Char))) : Option (List Char) :=
  ms.findSome? id

theorem firstSome_cons_some {v : List Char} {ms : List (Option (List Char))} :
    firstSome (some v :: ms) = some v := rfl

theorem firstSome_cons_none {ms : List (Option (List Char))} :
    firstSome (none :: ms) = firstSome ms := rfl

/-- A chain of `if value == "N/A"` fallback steps computes first-success over
the strategy order, as long as no strategy can produce the sentinel itself;
and it never disturbs an already-resolved value. -/
theorem foldl_naStep_firstSome :
    ∀ ms : List (Option (List Char)),
      (∀ m ∈ ms, ∀ v, m = some v → v ≠ "N/A".data) →
      List.foldl naStep "N/A".data ms = (firstSome ms).getD "N/A".data ∧
        ∀ a, a ≠ "N/A".data → List.foldl naStep a ms = a := by
  intro ms
  induction ms with
  | nil => exact fun _ => ⟨rfl, fun _ _ => rfl⟩
  | cons m rest ih =>
    intro hgood
    have ihr := ih fun m' hm' => hgood m' (List.mem_cons_of_mem _ hm')
    have hkeep : ∀ a, a ≠ "N/A".data → List.foldl naStep a (m :: rest) = a := by
      intro a ha
      rw [List.foldl_cons, naStep_ne ha]
      exact ihr.2 a ha
    refine ⟨?_, hkeep⟩
    cases hm : m with
    | some v =>
      have hv : v ≠ "N/A".data := hgood m (List.mem_cons_self _ _) v hm
      rw [List.foldl_cons]
      have h1 : naStep "N/A".data (some v) = v := rfl
      rw [h1, ihr.2 v hv, firstSome_cons_some]
      rfl
    | none =>
      rw [List.foldl_cons]
      have h1 : naStep "N/A".data none = "N/A".data := rfl
      rw [h1, firstSome_cons_none]
      exact ihr.1

/-- The critic score is the value of the earliest matching critic strategy
(schema `aggregateRating` before the JavaScript pattern loop), or the
sentinel when both fail. -/
theorem extractCriticScore_chain (html : List Char) :
    extractCriticScore html =
      (firstSome [criticM1 html, criticM2 html]).getD "N/A".data := by
  have hgood : ∀ m ∈ [criticM1 html, criticM2 html],
      ∀ v, m = some v → v ≠ "N/A".data := by
    intro m hm v hv
    rcases List.mem_cons.mp hm with h | hm2
    · subst h; exact digitStr_ne_na (criticM1_digitStr hv)
    rcases List.mem_cons.mp hm2 with h | hm3
    · subst h; exact digitStr_ne_na (criticM2_digitStr hv)
    · exact absurd hm3 (by simp)
  calc extractCriticScore html
      = List.foldl naStep "N/A".data [criticM1 html, criticM2 html] := by
        unfold extractCriticScore
        rw [List.foldl_cons, List.foldl_cons, List.foldl_nil]
        cases criticM1 html <;> rfl
    _ = (firstSome [criticM1 html, criticM2 html]).getD "N/A".data :=
        (foldl_naStep_firstSome _ hgood).1

/-- The audience score is the value of the earliest matching audience method
among the four, or the sentinel when all fail. -/
theorem extractAudienceScore_chain (html : List Char) :
    extractAudienceScore html =
      (firstSome [audienceM1 html, audienceM2 html, audienceM3 html,
        audienceM4 html]).getD "N/A".data := by
  have hgood : ∀ m ∈ [audienceM1 html, audienceM2 html, audienceM3 html,
      audienceM4 html], ∀ v, m = some v → v ≠ "N/A".data := by
    intro m hm v hv
    rcases List.mem_cons.mp hm with h | hm2
    · subst h; exact digitStr_ne_na (audienceM1_digitStr hv)
    rcases List.mem_cons.mp hm2 with h | hm3
    · subst h; exact digitStr_ne_na (audienceM2_digitStr hv)
    rcases List.mem_cons.mp hm3 with h | hm4
    · subst h; exact digitStr_ne_na (audienceM3_digitStr hv)
    rcases List.mem_cons.mp hm4 with h | hm5
    · subst h; exact digitStr_ne_na (audienceM4_digitStr hv)
    · exact absurd hm5 (by simp)
  calc extractAudienceScore html
      = List.foldl naStep "N/A".data [audienceM1 html, audienceM2 html,
          audienceM3 html, audienceM4 html] := by
        unfold extractAudienceScore
        rw [List.foldl_cons, List.foldl_cons, List.foldl_cons, List.foldl_cons,
          List.foldl_nil]
        cases audienceM1 html <;> rfl
    _ = (firstSome [audienceM1 html, audienceM2 html, audienceM3 html,
          audienceM4 html]).getD "N/A".data :=
        (foldl_naStep_firstSome _ hgood).1

/-! ### Year captures are exactly four digits -/

/-- The shape of every year capture produced by a regex: exactly four
digits. -/
def year4 (d : List Char) : Prop := d.length = 4 ∧ d.all Char.isDigit = true

theorem year4_ne_na {d : List Char} (h : year4 d) : d ≠ "N/A".data := by
  intro he
  rw [he] at h
  exact absurd h.1 (by decide)

theorem first4DigitWindow_year4 {s d : List Char} (h : first4DigitWindow s = some d) :
    year4 d := by
  induction s with
  | nil => exact absurd h (by simp [first4DigitWindow])
  | cons c cs ih =>
    simp only [first4DigitWindow] at h
    split at h
    · next hc =>
      injection h with h
      rw [← h]
      exact hc
    · exact ih h

theorem yearP1At_year4 {s d : List Char} (h : yearP1At s = some d) : year4 d := by
  unfold yearP1At at h
  cases h1 : oOr (dropLitCi "datecreated".data s) (dropLitCi "release".data s) with
  | none => rw [h1] at h; exact absurd h (by simp)
  | some r =>
    simp only [h1, Option.some_bind] at h
    cases h2 : quoteColonTail r with
    | none => rw [h2] at h; exact absurd h (by simp)
    | some t =>
      simp only [h2, Option.some_bind] at h
      exact first4DigitWindow_year4 h

theorem year19or20At_year4 {s d : List Char} (h : year19or20At s = some d) : year4 d := by
  unfold year19or20At at h
  split at h
  · split at h
    · next hc =>
      injection h with h
      obtain ⟨h19, hc2, hc3⟩ := hc
      refine ⟨by rw [← h]; rfl, ?_⟩
      rw [← h]
      have d1 : ('1' : Char).isDigit = true := by decide
      have d9 : ('9' : Char).isDigit = true := by decide
      have d2c : ('2' : Char).isDigit = true := by decide
      have d0 : ('0' : Char).isDigit = true := by decide
      rcases h19 with ⟨e0, e1⟩ | ⟨e0, e1⟩ <;>
        (subst e0; subst e1; simp [List.all_cons, hc2, hc3, d1, d9, d2c, d0])
    · exact absurd h (by simp)
  · exact absurd h (by simp)

theorem kwGapYearAt_year4 {kws : List (List Char)} {n : Nat} {s d : List Char}
    (h : kwGapYearAt kws n s = some d) : year4 d := by
  refine findSome?_prop year4 (fun k r hk => ?_) kws d h
  cases h1 : dropLitCi k s with
  | none =>
    simp only [h1, Option.none_bind] at hk
    exact absurd hk (by simp)
  | some rest =>
    simp only [h1, Option.some_bind] at hk
    split at hk
    · exact year19or20At_year4 hk
    · exact absurd hk (by simp)

theorem yearPatternChain_year4 {html v : List Char} (h : yearPatternChain html = some v) :
    year4 v := by
  rcases oOr_eq_some h with h1 | h1
  · exact scanFirst_prop (fun _s _r hr => yearP1At_year4 hr) html v h1
  rcases oOr_eq_some h1 with h2 | h2
  · exact scanFirst_prop (fun _s _r hr => kwGapYearAt_year4 hr) html v h2
  · exact scanFirst_prop (fun _s _r hr => kwGapYearAt_year4 hr) html v h2

theorem extractYearDetail_shape (html : List Char) :
    extractYearDetail html = "N/A".data ∨ year4 (extractYearDetail html) := by
  unfold extractYearDetail
  refine naStep_shape year4 ?_ ?_
  · cases hc : yearPatternChain html with
    | some v => exact Or.inr (yearPatternChain_year4 hc)
    | none => exact Or.inl rfl
  · exact fun v hv =>
      scanFirst_prop (fun _s _r hr => year19or20At_year4 hr) (html.take 5000) v hv

theorem boundedYearAt_year4 {prev : Option Char} {s d : List Char}
    (h : boundedYearAt prev s = some d) : year4 d := by
  unfold boundedYearAt at h
  split at h
  · split at h
    · next hc =>
      injection h with h
      obtain ⟨-, h19, hc2, hc3, -⟩ := hc
      refine ⟨by rw [← h]; rfl, ?_⟩
      rw [← h]
      have d1 : ('1' : Char).isDigit = true := by decide
      have d9 : ('9' : Char).isDigit = true := by decide
      have d2c : ('2' : Char).isDigit = true := by decide
      have d0 : ('0' : Char).isDigit = true := by decide
      rcases h19 with ⟨e0, e1⟩ | ⟨e0, e1⟩ <;>
        (subst e0; subst e1; simp [List.all_cons, hc2, hc3, d1, d9, d2c, d0])
    · exact absurd h (by simp)
  · exact absurd h (by simp)

theorem boundedYearScan_year4 {s d : List Char} :
    ∀ {prev : Option Char}, boundedYearScan prev s = some d → year4 d := by
  induction s with
  | nil => intro prev h; exact absurd h (by simp [boundedYearScan])
  | cons c cs ih =>
    intro prev h
    simp only [boundedYearScan] at h
    cases h1 : boundedYearAt prev (c :: cs) with
    | some x =>
      rw [h1] at h
      have hx : x = d := by simpa using h
      rw [← hx]
      exact boundedYearAt_year4 h1
    | none =>
      rw [h1] at h
      exact ih h

theorem urlYearAt_year4 {s d : List Char} (h : urlYearAt s = some d) : year4 d := by
  unfold urlYearAt at h
  cases h1 : dropLitCs "/m/".data s with
  | none => rw [h1] at h; exact absurd h (by simp)
  | some r =>
    simp only [h1, Option.some_bind] at h
    split at h
    · split at h
      · split at h
        · next hc =>
          injection h with h
          rw [← h]
          exact hc
        · exact absurd h (by simp)
      · exact absurd h (by simp)
    · exact absurd h (by simp)

theorem titleYear_year4 {s d : List Char} (h : titleYear s = some d) : year4 d := by
  unfold titleYear at h
  split at h
  · split at h
    · split at h
      · next hc =>
        injection h with h
        rw [← h]
        exact ⟨hc.1, hc.2.1⟩
      · exact absurd h (by simp)
    · exact absurd h (by simp)
  · exact absurd h (by simp)

/-! ### Consensus validation facts -/

theorem consensusValid_ok {c : List Char} (h : consensusValid c = true) :
    20 < c.length ∧ hasSub "class=".data c = false := by
  unfold consensusValid at h
  simp only [Bool.and_eq_true, decide_eq_true_eq, Bool.not_eq_true'] at h
  exact h

/-- Method 3 only yields candidates it validated: long enough and without
the `class=` residue marker. -/
theorem consensusM3_ok {html t : List Char} (h : consensusM3 html = some t) :
    20 < t.length ∧ hasSub "class=".data t = false := by
  refine findSome?_prop (fun c => 20 < c.length ∧ hasSub "class=".data c = false)
    (fun m r hm => ?_) _ t h
  cases m with
  | none => exact absurd hm (by simp)
  | some cap =>
    simp only [Option.some_bind] at hm
    split at hm
    · next hv =>
      injection hm with hm
      rw [← hm]
      exact consensusValid_ok hv
    · exact absurd hm (by simp)

theorem m4Chain_ok : ∀ (ms : List (Option (List Char))) (t0 t : List Char),
    m4Chain ms t0 = (t, true) → 20 < t.length ∧ hasSub "class=".data t = false := by
  intro ms
  induction ms with
  | nil =>
    intro t0 t h
    simp only [m4Chain, Prod.mk.injEq] at h
    exact absurd h.2 (by simp)
  | cons m rest ih =>
    intro t0 t h
    cases m with
    | none =>
      simp only [m4Chain] at h
      exact ih t0 t h
    | some cap =>
      simp only [m4Chain] at h
      split at h
      · next hv =>
        simp only [Prod.mk.injEq] at h
        rw [← h.1]
        exact consensusValid_ok hv
      · exact ih _ t h

/-- Method 4 sets `consensus_found` only on validated candidates (its leak
path keeps `consensus_found = false`). -/
theorem consensusM4_ok {html t0 t : List Char} (h : consensusM4 html t0 = (t, true)) :
    20 < t.length ∧ hasSub "class=".data t = false :=
  m4Chain_ok _ t0 t h

/-- The accepted paragraph of method 5 passed the keyword filter. -/
theorem consensusM5_ok {ps : List (List Char)} {t : List Char}
    (h : consensusM5 ps = some t) : consensusParagraphOk t = true :=
  List.find?_some h

theorem consensusParagraphOk_bounds {t : List Char} (h : consensusParagraphOk t = true) :
    30 < t.length ∧ t.length < 500 := by
  unfold consensusParagraphOk at h
  simp only [Bool.and_eq_true, decide_eq_true_eq] at h
  exact ⟨h.1.1.1.1, h.1.1.1.2⟩

theorem consensusParagraphOk_no_mission {t : List Char} (h : consensusParagraphOk t = true) :
    hasSub "mission".data (lowerL t) = false := by
  unfold consensusParagraphOk at h
  simp only [Bool.and_eq_true, Bool.not_eq_true'] at h
  exact h.2

/-- The chain returns the sentinel when every strategy fails. -/
theorem consensusFinal_sentinel {doc : Doc}
    (h1 : consensusM1 doc = none) (h2 : consensusM2 doc.html = none)
    (h3 : consensusM3 doc.html = none)
    (h4a : scanFirst m4CriticsAt doc.html = none)
    (h4b : scanFirst m4ConsensusAt doc.html = none)
    (h5 : consensusM5 doc.paragraphs = none) :
    consensusFinal doc = "No consensus yet.".data := by
  unfold consensusFinal consensusPipeline consensusM4
  simp [h1, h2, h3, h4a, h4b, h5, m4Chain]

/-! ### Listing extractor facts -/

/-- Every emitted summary url is empty or absolute-by-prefix: a nonempty
relative url got the base origin prepended, the rest are kept as is. -/
theorem search_item_url {it : Item} {r : SummaryRecord} (h : search_item it = some r) :
    r.url = [] ∨ "http".data.isPrefixOf r.url = true := by
  unfold search_item at h
  split at h
  · exact absurd h (by simp)
  · next traw heqt =>
    split at h
    · exact absurd h (by simp)
    · next href hequ =>
      injection h with h
      rw [← h]
      by_cases hc : href.getD [] ≠ [] ∧ !("http".data.isPrefixOf (href.getD []))
      · right
        show "http".data.isPrefixOf (if _ then base_url ++ href.getD [] else href.getD []) = true
        rw [if_pos hc]
        have hsplit : base_url ++ href.getD [] =
            "http".data ++ ("s://www.rottentomatoes.com".data ++ href.getD []) := by
          rw [← List.append_assoc]
          rfl
        rw [hsplit, List.isPrefixOf_iff_prefix]
        exact List.prefix_append _ _
      · show (if _ then base_url ++ href.getD [] else href.getD []) = [] ∨
          "http".data.isPrefixOf (if _ then base_url ++ href.getD [] else href.getD []) = true
        rw [if_neg hc]
        rcases Decidable.not_and_iff_or_not.mp hc with hn | hn
        · exact Or.inl (Decidable.not_not.mp hn)
        · exact Or.inr (by simpa using hn)

/-- When the dedicated year element has text other than the in-band `"N/A"`
sentinel, that stripped text is the year, untouched. -/
theorem resolveItemYear_elem {it : Item} {raw url title : List Char}
    (he : it.yearElemRaw = some raw) (hne : pyStrip raw ≠ "N/A".data) :
    resolveItemYear it url title = pyStrip raw := by
  unfold resolveItemYear
  simp only [he]
  have e2 : naStep (pyStrip raw) (boundedYearScan none it.rawHtml) = pyStrip raw :=
    naStep_ne hne
  rw [e2]
  have hno : ¬(pyStrip raw = "N/A".data ∧ hasSub "/m/".data url = true) :=
    fun hand => hne hand.1
  rw [if_neg hno]
  exact naStep_ne hne

/-! ### Facts about `str.replace`, for the entity decode of the normalizer -/

theorem replGo_skip (p r : List Char) : ∀ (k : Nat) (cs : List Char),
    replGo p r k cs = replGo p r 0 (cs.drop k) := by
  intro k
  induction k with
  | zero => intro cs; rfl
  | succ n ih =>
    intro cs
    cases cs with
    | nil => simp [replGo]
    | cons c cs' => simpa [replGo] using ih cs'

theorem hasSub_cons_false {p : List Char} {c : Char} {cs : List Char}
    (h : hasSub p (c :: cs) = false) :
    p.isPrefixOf (c :: cs) = false ∧ hasSub p cs = false := by
  simpa only [hasSub, Bool.or_eq_false_iff] using h

theorem hasSub_nil_of_ne {p : List Char} (hp : p ≠ []) : hasSub p [] = false := by
  cases p with
  | nil => exact absurd rfl hp
  | cons a as => simp [hasSub]

theorem hasSub_drop {q : List Char} :
    ∀ (s : List Char) (k : Nat), hasSub q s = false → hasSub q (s.drop k) = false := by
  intro s
  induction s with
  | nil => intro k h; simpa using h
  | cons c cs ih =>
    intro k h
    cases k with
    | zero => exact h
    | succ n => exact ih n (hasSub_cons_false h).2

/-- No occurrence of `p` starts inside `r` or crosses from `r` into `t` when
`r` and `p` share no character and `t` itself is occurrence-free. -/
theorem not_hasSub_append {p : List Char} (hp : p ≠ []) :
    ∀ {r t : List Char}, (∀ c ∈ r, c ∉ p) → hasSub p t = false →
      hasSub p (r ++ t) = false := by
  intro r
  induction r with
  | nil => intro t _ ht; simpa using ht
  | cons a r' ih =>
    intro t hr ht
    have ha : a ∉ p := hr a (List.mem_cons_self _ _)
    simp only [List.cons_append, hasSub, Bool.or_eq_false_iff]
    refine ⟨?_, ih (fun c hc => hr c (List.mem_cons_of_mem _ hc)) ht⟩
    cases p with
    | nil => exact absurd rfl hp
    | cons q qt =>
      have hqa : (q == a) = false := by
        simp only [beq_eq_false_iff_ne, ne_eq]
        intro e
        exact ha (e ▸ List.mem_cons_self _ _)
      simp [List.isPrefixOf_cons₂, hqa]

/-- A prefix of the replacement output that avoids every character of `r`
must already be a prefix of the input (it cannot reach into an inserted
copy of `r`). -/
theorem isPrefixOf_replGo {p r : List Char} (hr : r ≠ []) :
    ∀ (n : Nat) (cs : List Char), cs.length ≤ n →
      ∀ q', q' ≠ [] → (∀ c ∈ q', c ∉ r) →
        q'.isPrefixOf (replGo p r 0 cs) = true → q'.isPrefixOf cs = true := by
  intro n
  induction n with
  | zero =>
    intro cs hlen q' hq' _ hpre
    have hcs : cs = [] := List.length_eq_zero.mp (Nat.le_zero.mp hlen)
    subst hcs
    cases q' with
    | nil => exact absurd rfl hq'
    | cons a as => simp [replGo] at hpre
  | succ n ih =>
    intro cs hlen q' hq' hdisj hpre
    cases cs with
    | nil =>
      cases q' with
      | nil => exact absurd rfl hq'
      | cons a as => simp [replGo] at hpre
    | cons c cs' =>
      simp only [replGo] at hpre
      split at hpre
      · -- a match: the output starts with the nonempty `r`
        cases q' with
        | nil => exact absurd rfl hq'
        | cons a q'' =>
          cases r with
          | nil => exact absurd rfl hr
          | cons b r' =>
            rw [List.cons_append, List.isPrefixOf_cons₂, Bool.and_eq_true, beq_iff_eq] at hpre
            exact absurd (hpre.1 ▸ List.mem_cons_self _ _)
              (hdisj a (List.mem_cons_self _ _))
      · -- no match: the head character is copied
        cases q' with
        | nil => exact absurd rfl hq'
        | cons a q'' =>
          rw [List.isPrefixOf_cons₂, Bool.and_eq_true] at hpre
          rw [List.isPrefixOf_cons₂, Bool.and_eq_true]
          refine ⟨hpre.1, ?_⟩
          by_cases hq'' : q'' = []
          · subst hq''; exact List.isPrefixOf_nil_left
          · exact ih cs' (Nat.le_of_succ_le_succ hlen) q'' hq''
              (fun x hx => hdisj x (List.mem_cons_of_mem _ hx)) hpre.2

/-- After `s.replace(p, r)` no occurrence of `p` remains, provided `r` is
nonempty and shares no character with `p`. -/
theorem hasSub_replAll_self {p r : List Char} (hp : p ≠ []) (hr : r ≠ [])
    (hd : ∀ c ∈ r, c ∉ p) (s : List Char) : hasSub p (replAll p r s) = false := by
  suffices H : ∀ n s, s.length ≤ n → hasSub p (replGo p r 0 s) = false from
    H s.length s Nat.le.refl
  intro n
  induction n with
  | zero =>
    intro s hlen
    have hs : s = [] := List.length_eq_zero.mp (Nat.le_zero.mp hlen)
    subst hs
    simpa [replGo] using hasSub_nil_of_ne hp
  | succ n ih =>
    intro s hlen
    cases s with
    | nil => simpa [replGo] using hasSub_nil_of_ne hp
    | cons c cs =>
      simp only [replGo]
      split
      · -- matched: output is r ++ (rest of the replacement)
        rw [replGo_skip]
        refine not_hasSub_append hp hd (ih _ ?_)
        calc (cs.drop (p.length - 1)).length ≤ cs.length := by
              rw [List.length_drop]; omega
          _ ≤ n := Nat.le_of_succ_le_succ hlen
      · next hcond =>
        have hpref : p.isPrefixOf (c :: cs) = false := by
          by_contra hx
          exact hcond ⟨Bool.of_not_eq_false hx, hp⟩
        simp only [hasSub, Bool.or_eq_false_iff]
        refine ⟨?_, ih cs (Nat.le_of_succ_le_succ hlen)⟩
        cases p with
        | nil => exact absurd rfl hp
        | cons q qt =>
          rw [List.isPrefixOf_cons₂] at hpref ⊢
          by_cases hqc : (q == c) = true
          · rw [hqc, Bool.true_and] at hpref ⊢
            by_cases hqt : qt = []
            · subst hqt; simp at hpref
            · by_contra hx
              have hqtcs := isPrefixOf_replGo hr cs.length cs Nat.le.refl qt hqt
                (fun x hx2 => fun hxr => hd x hxr (List.mem_cons_of_mem _ hx2))
                (Bool.of_not_eq_false hx)
              rw [hqtcs] at hpref
              exact absurd hpref (by simp)
          · have : (q == c) = false := Bool.of_not_eq_true hqc
            simp [this]

/-- `s.replace(p, r)` creates no occurrence of a pattern `q` that was absent,
provided `r` shares no character with `q`. -/
theorem hasSub_replAll_preserve {p r q : List Char} (hq : q ≠ []) (hr : r ≠ [])
    (hd : ∀ c ∈ r, c ∉ q) (s : List Char) (hs : hasSub q s = false) :
    hasSub q (replAll p r s) = false := by
  suffices H : ∀ n s, s.length ≤ n → hasSub q s = false →
      hasSub q (replGo p r 0 s) = false from H s.length s Nat.le.refl hs
  intro n
  induction n with
  | zero =>
    intro s hlen _
    have h0 : s = [] := List.length_eq_zero.mp (Nat.le_zero.mp hlen)
    subst h0
    simpa [replGo] using hasSub_nil_of_ne hq
  | succ n ih =>
    intro s hlen hsub
    cases s with
    | nil => simpa [replGo] using hasSub_nil_of_ne hq
    | cons c cs =>
      obtain ⟨hpref, htail⟩ := hasSub_cons_false hsub
      simp only [replGo]
      split
      · rw [replGo_skip]
        refine not_hasSub_append hq hd (ih _ ?_ (hasSub_drop cs _ htail))
        calc (cs.drop (p.length - 1)).length ≤ cs.length := by
              rw [List.length_drop]; omega
          _ ≤ n := Nat.le_of_succ_le_succ hlen
      · simp only [hasSub, Bool.or_eq_false_iff]
        refine ⟨?_, ih cs (Nat.le_of_succ_le_succ hlen) htail⟩
        cases q with
        | nil => exact absurd rfl hq
        | cons a at' =>
          rw [List.isPrefixOf_cons₂] at hpref ⊢
          by_cases hac : (a == c) = true
          · rw [hac, Bool.true_and] at hpref ⊢
            by_cases hat : at' = []
            · subst hat; simp at hpref
            · by_contra hx
              have := isPrefixOf_replGo hr cs.length cs Nat.le.refl at' hat
                (fun x hx2 => fun hxr => hd x hxr (List.mem_cons_of_mem _ hx2))
                (Bool.of_not_eq_false hx)
              rw [this] at hpref
              exact absurd hpref (by simp)
          · have : (a == c) = false := Bool.of_not_eq_true hac
            simp [this]

/-- `s.replace(p, r)` is the identity when `p` does not occur. -/
theorem replAll_of_not_hasSub {p r : List Char} :
    ∀ {s : List Char}, hasSub p s = false → replAll p r s = s := by
  intro s
  induction s with
  | nil => intro _; rfl
  | cons c cs ih =>
    intro h
    obtain ⟨h1, h2⟩ := hasSub_cons_false h
    unfold replAll at ih ⊢
    simp only [replGo]
    rw [if_neg fun hand => by rw [h1] at hand; exact absurd hand.1 (by simp)]
    rw [ih h2]

/-- On input free of `&amp;`, the decode chain removes every instance of the
four entities (decoding `&amp;` is what can reintroduce entity text). -/
theorem decodeEntities_clean {s : List Char} (hamp : hasSub entAmp s = false) :
    hasSub entNbsp (decodeEntities s) = false ∧
    hasSub entQuot (decodeEntities s) = false ∧
    hasSub entApos (decodeEntities s) = false ∧
    hasSub entAmp (decodeEntities s) = false := by
  have hn1 : hasSub entNbsp (replAll entNbsp " ".data s) = false :=
    hasSub_replAll_self (by decide) (by decide) (by decide) s
  have ha1 : hasSub entAmp (replAll entNbsp " ".data s) = false :=
    hasSub_replAll_preserve (by decide) (by decide) (by decide) s hamp
  have hq2 : hasSub entQuot
      (replAll entQuot "\"".data (replAll entNbsp " ".data s)) = false :=
    hasSub_replAll_self (by decide) (by decide) (by decide) _
  have hn2 : hasSub entNbsp
      (replAll entQuot "\"".data (replAll entNbsp " ".data s)) = false :=
    hasSub_replAll_preserve (by decide) (by decide) (by decide) _ hn1
  have ha2 : hasSub entAmp
      (replAll entQuot "\"".data (replAll entNbsp " ".data s)) = false :=
    hasSub_replAll_preserve (by decide) (by decide) (by decide) _ ha1
  have hp3 : hasSub entApos
      (replAll entApos ['\''] (replAll entQuot "\"".data (replAll entNbsp " ".data s))) =
        false :=
    hasSub_replAll_self (by decide) (by decide) (by decide) _
  have hn3 : hasSub entNbsp
      (replAll entApos ['\''] (replAll entQuot "\"".data (replAll entNbsp " ".data s))) =
        false :=
    hasSub_replAll_preserve (by decide) (by decide) (by decide) _ hn2
  have hq3 : hasSub entQuot
      (replAll entApos ['\''] (replAll entQuot "\"".data (replAll entNbsp " ".data s))) =
        false :=
    hasSub_replAll_preserve (by decide) (by decide) (by decide) _ hq2
  have ha3 : hasSub entAmp
      (replAll entApos ['\''] (replAll entQuot "\"".data (replAll entNbsp " ".data s))) =
        false :=
    hasSub_replAll_preserve (by decide) (by decide) (by decide) _ ha2
  have he4 : decodeEntities s =
      replAll entApos ['\''] (replAll entQuot "\"".data (replAll entNbsp " ".data s)) :=
    replAll_of_not_hasSub ha3
  rw [he4]
  exact ⟨hn3, hq3, hp3, ha3⟩

/-- On input free of `&amp;`, the decode chain is idempotent. -/
theorem decodeEntities_idem {s : List Char} (hamp : hasSub entAmp s = false) :
    decodeEntities (decodeEntities s) = decodeEntities s := by
  obtain ⟨hn, hq, hp, ha⟩ := decodeEntities_clean hamp
  have h1 : replAll entNbsp " ".data (decodeEntities s) = decodeEntities s :=
    replAll_of_not_hasSub hn
  have h2 : replAll entQuot "\"".data (decodeEntities s) = decodeEntities s :=
    replAll_of_not_hasSub hq
  have h3 : replAll entApos ['\''] (decodeEntities s) = decodeEntities s :=
    replAll_of_not_hasSub hp
  have h4 : replAll entAmp "&".data (decodeEntities s) = decodeEntities s :=
    replAll_of_not_hasSub ha
  calc decodeEntities (decodeEntities s) =
      replAll entAmp "&".data (replAll entApos ['\'']
        (replAll entQuot "\"".data (replAll entNbsp " ".data (decodeEntities s)))) := rfl
    _ = decodeEntities s := by rw [h1, h2, h3, h4]

/-! ### Concrete example inputs for the claims -/

/-- Detail page whose schema rating value is the out-of-range `150`. -/
def c1exDoc : Doc :=
  { html := "\"aggregateRating\": x \"ratingValue\":\"150\"".data,
    selText := fun _ => none, paragraphs := [] }

/-- Detail page whose schema `reviewBody` carries a `class=` residue. -/
def c2exDoc : Doc :=
  { html := "\"reviewBody\":\"this has class= inside and plenty of length\"".data,
    selText := fun _ => none, paragraphs := [] }

/-- Detail page where only method 4's second pattern matches, with a short
capture that fails validation and leaks. -/
def c3exDoc : Doc :=
  { html := "Consensus: tiny".data, selText := fun _ => none, paragraphs := [] }

/-- Detail page whose `dateCreated` year is the out-of-range `0000`. -/
def c4exDoc : Doc :=
  { html := "dateCreated:\"0000\"".data, selText := fun _ => none, paragraphs := [] }

/-- Detail page with score signals at two priority levels for both score
fields: schema says 91 (critic) and 77 (audience), the lower-priority
JavaScript patterns say 57 and 63. -/
def c5exDoc : Doc :=
  { html := ("\"aggregateRating\" \"ratingValue\":\"91\" tomatometer: \"57\" " ++
      "\"audienceScore\": \"77\" audience 63%").data,
    selText := fun _ => none, paragraphs := [] }

/-- Detail page with no schema audience signal but conflicting signals at
audience levels 2 and 3: the score-board attribute says 84, the
popcornmeter element says 55. -/
def c5bexDoc : Doc :=
  { html := "<score-board audiencescore=\"84\"> popcornmeter>55%".data,
    selText := fun _ => none, paragraphs := [] }

/-- Listing page for method 3 of the consensus chain. -/
def m3exHtml : List Char :=
  "<p class=\"critic_consensus\">This is a sufficiently long consensus text here</p>".data

/-- Explicit `Critics Consensus:` text for method 4. -/
def m4exHtml : List Char :=
  "Critics Consensus: a wonderfully long consensus sentence for testing".data

/-- A paragraph with a positive and a negative keyword: the gate rejects it. -/
def c7bad : List Char :=
  "the performance succeeds but the mission drags on forever".data

/-- A paragraph with a positive keyword and no negative one. -/
def c7good : List Char :=
  "the director delivers a stylish and moving film for everyone".data

/-- Detail page whose only consensus signal is an acceptable paragraph. -/
def m5exDoc : Doc :=
  { html := [], selText := fun _ => none, paragraphs := [c7good] }

/-- Listing container whose url element has no `href` attribute. -/
def c9item : Item :=
  { titleRaw := some "Some Movie".data, urlHref := some none,
    yearElemRaw := none, rawHtml := "<div>x</div>".data }

/-- Listing container with a dedicated year element whose text strips to
empty. -/
def c10item : Item :=
  { titleRaw := some "Movie".data, urlHref := some (some "/m/movie_2001".data),
    yearElemRaw := some [], rawHtml := "anything 1999 here".data }

/-- Listing container whose dedicated year element reads exactly `N/A`. -/
def c10naItem : Item :=
  { titleRaw := some "Movie".data, urlHref := some (some "/m/movie_x".data),
    yearElemRaw := some "N/A".data, rawHtml := "released in 2005 worldwide".data }

/-! ### The claims -/

/-- C1 counterexample.  The claim says the score fields are `"N/A"` or an
integer string in [0, 100]; but no numeric range check exists anywhere in the
extractor, so a schema `"ratingValue":"150"` is returned as the critic score,
whose value 150 exceeds 100. -/
theorem critic_score_range_counterexample :
    (get_movie_ratings c1exDoc "u".data).critic_score = "150".data ∧
    100 < digitsToNat (get_movie_ratings c1exDoc "u".data).critic_score := by
  constructor
  · rfl
  · decide

/-- C1 (amended).  For every input document, the critic and audience score
fields of the returned record are each either the sentinel `"N/A"` or a
nonempty string of digits — the digit shape comes from the `(\d...)` capture
groups — but no numeric range check is applied, so values above 100 can be
returned. -/
theorem scores_digit_or_sentinel (doc : Doc) (url : List Char) :
    ((get_movie_ratings doc url).critic_score = "N/A".data ∨
      digitStr (get_movie_ratings doc url).critic_score) ∧
    ((get_movie_ratings doc url).audience_score = "N/A".data ∨
      digitStr (get_movie_ratings doc url).audience_score) :=
  ⟨extractCriticScore_shape doc.html, extractAudienceScore_shape doc.html⟩

/-- C1 witness: the amended claim evaluated on the empty document. -/
theorem scores_digit_or_sentinel_witness :
    ((get_movie_ratings emptyDoc "u".data).critic_score = "N/A".data ∨
      digitStr (get_movie_ratings emptyDoc "u".data).critic_score) ∧
    ((get_movie_ratings emptyDoc "u".data).audience_score = "N/A".data ∨
      digitStr (get_movie_ratings emptyDoc "u".data).audience_score) :=
  scores_digit_or_sentinel emptyDoc "u".data

/-- C2 counterexample.  A schema `reviewBody` candidate containing the
`class=` residue marker is accepted by method 2 (which never checks for
markup indicators), run through the final aggressive cleanup, and returned —
so a markup-bearing candidate is cleaned further and reused rather than
rejected. -/
theorem consensus_markup_reuse_counterexample :
    hasSub "class=".data (get_movie_ratings c2exDoc "u".data).consensus = true ∧
    (get_movie_ratings c2exDoc "u".data).consensus ≠ "No consensus yet.".data := by
  constructor
  · rfl
  · decide

/-- C2 (amended).  Only the marker-regex strategies (methods 3 and 4) reject
candidates containing `class=`: a candidate those methods accept is free of
the marker.  Methods 1-2 perform no such check, method 4's rejected candidate
can still leak with `consensus_found` unset, and an accepted markup-bearing
candidate is cleaned at the end and returned (see the counterexample). -/
theorem consensus_marker_strategies_reject_markup (html t0 : List Char) :
    (∀ t, consensusM3 html = some t → hasSub "class=".data t = false) ∧
    (∀ t, consensusM4 html t0 = (t, true) → hasSub "class=".data t = false) :=
  ⟨fun _t h => (consensusM3_ok h).2, fun _t h => (consensusM4_ok h).2⟩

/-- C2 witness: both rejection guarantees applied at concrete documents where
methods 3 and 4 accept. -/
theorem consensus_marker_strategies_reject_markup_witness :
    hasSub "class=".data "This is a sufficiently long consensus text here".data = false ∧
    hasSub "class=".data "a wonderfully long consensus sentence for testing".data = false :=
  ⟨(consensus_marker_strategies_reject_markup m3exHtml "No consensus yet.".data).1
      "This is a sufficiently long consensus text here".data (by decide),
    (consensus_marker_strategies_reject_markup m4exHtml "No consensus yet.".data).2
      "a wonderfully long consensus sentence for testing".data (by decide)⟩

/-- C3 counterexample.  The claim says the consensus field is the sentinel or
a validated candidate of length in (20, 1000); but a method-4 match that
fails its own check overwrites `consensus_text` and leaks when everything
later fails, so the record carries the 4-character non-sentinel `"tiny"`.
(Separately, no 1000-character upper bound exists anywhere in the code.) -/
theorem consensus_bounds_counterexample :
    (get_movie_ratings c3exDoc "u".data).consensus = "tiny".data ∧
    (get_movie_ratings c3exDoc "u".data).consensus ≠ "No consensus yet.".data ∧
    (get_movie_ratings c3exDoc "u".data).consensus.length ≤ 20 := by
  refine ⟨rfl, by decide, by decide⟩

/-- C3 (amended).  The consensus field is the sentinel whenever every
strategy fails (including method 4's two patterns finding no match at all);
and a candidate accepted by the last-resort paragraph scan has length in
(30, 500).  The methods only enforce their local checks — a 20-character
lower bound for methods 1-4 (pre-strip for method 2), no 1000-character
upper bound — and a method-4 match that fails validation can leak
uncleaned. -/
theorem consensus_sentinel_and_paragraph_bounds (doc : Doc) (url t : List Char) :
    ((consensusM1 doc = none ∧ consensusM2 doc.html = none ∧ consensusM3 doc.html = none ∧
        scanFirst m4CriticsAt doc.html = none ∧ scanFirst m4ConsensusAt doc.html = none ∧
        consensusM5 doc.paragraphs = none) →
      (get_movie_ratings doc url).consensus = "No consensus yet.".data) ∧
    (consensusM5 doc.paragraphs = some t → 30 < t.length ∧ t.length < 500) := by
  constructor
  · rintro ⟨h1, h2, h3, h4a, h4b, h5⟩
    exact consensusFinal_sentinel h1 h2 h3 h4a h4b h5
  · exact fun h => consensusParagraphOk_bounds (consensusM5_ok h)

/-- C3 witness: the sentinel branch on the empty document, and the bound on
a concretely accepted paragraph. -/
theorem consensus_sentinel_and_paragraph_bounds_witness :
    (get_movie_ratings emptyDoc "u".data).consensus = "No consensus yet.".data ∧
    (30 < c7good.length ∧ c7good.length < 500) :=
  ⟨(consensus_sentinel_and_paragraph_bounds emptyDoc "u".data []).1
      ⟨rfl, rfl, rfl, rfl, rfl, rfl⟩,
    (consensus_sentinel_and_paragraph_bounds m5exDoc "u".data c7good).2 rfl⟩

/-- C4 counterexample.  The claim puts every non-sentinel year in
[1888, current_year + 2]; but the first detail year pattern captures any
four digits and no range check exists, so `dateCreated:"0000"` yields year
`"0000"`, numerically 0 < 1888. -/
theorem year_range_counterexample :
    (get_movie_ratings c4exDoc "u".data).year = "0000".data ∧
    digitsToNat (get_movie_ratings c4exDoc "u".data).year < 1888 := by
  refine ⟨rfl, by decide⟩

/-- C4 (amended).  Every non-sentinel year produced by the detail patterns
and fallback, and by the listing extractor's markup-scan, url-path and
title-suffix methods, is a string of exactly four digits — but no numeric
range check is applied (the listing's dedicated-element method, settled under
C10, copies arbitrary element text and has no shape at all). -/
theorem year_four_digit_shape (doc : Doc) (url : List Char) (prev : Option Char)
    (s u t d : List Char) :
    ((get_movie_ratings doc url).year = "N/A".data ∨
      year4 (get_movie_ratings doc url).year) ∧
    (boundedYearScan prev s = some d → year4 d) ∧
    (scanFirst urlYearAt u = some d → year4 d) ∧
    (titleYear t = some d → year4 d) :=
  ⟨extractYearDetail_shape doc.html,
    fun h => boundedYearScan_year4 h,
    fun h => scanFirst_prop (fun _s _r hr => urlYearAt_year4 hr) u d h,
    fun h => titleYear_year4 h⟩

/-- C4 witness: the amended claim applied on the empty document and on
concrete matches of the three listing year scanners. -/
theorem year_four_digit_shape_witness :
    ((get_movie_ratings emptyDoc "u".data).year = "N/A".data ∨
      year4 (get_movie_ratings emptyDoc "u".data).year) ∧
    year4 "2005".data ∧ year4 "2010".data ∧ year4 "1999".data :=
  ⟨(year_four_digit_shape emptyDoc "u".data none [] [] [] []).1,
    (year_four_digit_shape emptyDoc "u".data none "x 2005 y".data [] [] "2005".data).2.1
      (by decide),
    (year_four_digit_shape emptyDoc "u".data none []
        "https://www.rottentomatoes.com/m/movie_title_2010".data [] "2010".data).2.2.1
      (by decide),
    (year_four_digit_shape emptyDoc "u".data none [] [] "Movie (1999)".data "1999".data).2.2.2
      (by decide)⟩

/-- C5 (confirmed).  For every document, each score field of the returned
record is exactly the value of the earliest-listed strategy of its chain that
matched (the sentinel when none did): the complete priority order of the
chains — schema `aggregateRating` before the critic pattern loop; audience
JSON before score-board before popcornmeter before the fallback loop.  This
characterizes resolution between ANY two priority levels: whenever a
higher-priority strategy yields a value, every lower-priority strategy is
irrelevant to the field, because the `if score == "N/A"` guard never fires —
a captured digit string is never the sentinel.  The witnesses exhibit
level-1-vs-level-2 conflicts for both scores and a level-2-vs-level-3
audience conflict. -/
theorem score_strategy_priority (doc : Doc) (url : List Char) :
    (get_movie_ratings doc url).critic_score =
      (firstSome [criticM1 doc.html, criticM2 doc.html]).getD "N/A".data ∧
    (get_movie_ratings doc url).audience_score =
      (firstSome [audienceM1 doc.html, audienceM2 doc.html, audienceM3 doc.html,
        audienceM4 doc.html]).getD "N/A".data :=
  ⟨extractCriticScore_chain doc.html, extractAudienceScore_chain doc.html⟩

/-- C5 witness: with schema values 91/77 and lower-priority matches 57/63 in
the same document the record carries 91 and 77; and on a document with no
schema audience signal but a score-board attribute 84 conflicting with a
popcornmeter 55 one level below, the record carries 84. -/
theorem score_strategy_priority_witness :
    (get_movie_ratings c5exDoc "u".data).critic_score = "91".data ∧
    (get_movie_ratings c5exDoc "u".data).audience_score = "77".data ∧
    (get_movie_ratings c5bexDoc "u".data).audience_score = "84".data ∧
    audienceM1 c5bexDoc.html = none ∧
    audienceM2 c5bexDoc.html = some "84".data ∧
    audienceM3 c5bexDoc.html = some "55".data ∧
    scanFirst (kwColonDigitsAt ["tomatometer".data, "score".data]) c5exDoc.html =
      some "57".data :=
  ⟨(score_strategy_priority c5exDoc "u".data).1.trans (by decide),
    (score_strategy_priority c5exDoc "u".data).2.trans (by decide),
    (score_strategy_priority c5bexDoc "u".data).2.trans (by decide),
    by decide, by decide, by decide, by decide⟩

/-- C6 counterexample.  The claim says the consensus normalization is
idempotent and leaves none of the four baseline entities; but decoding
`&amp;` last can recreate entity text: on `"&amp;nbsp;"` one pass yields
`"&nbsp;"` (an entity instance) and a second pass changes it again. -/
theorem normalize_idempotent_counterexample :
    normalizeConsensus (normalizeConsensus "&amp;nbsp;".data) ≠
      normalizeConsensus "&amp;nbsp;".data ∧
    hasSub entNbsp (normalizeConsensus "&amp;nbsp;".data) = true := by
  refine ⟨by decide, by decide⟩

/-- C6 (amended).  The entity-decode stage of the normalizer, restricted to
inputs containing no `&amp;`, is idempotent and removes every instance of the
four baseline entities; on arbitrary inputs idempotence fails because
decoding `&amp;` can reintroduce entity text (see the counterexample). -/
theorem decode_idempotent_no_amp (s : List Char) (h : hasSub entAmp s = false) :
    decodeEntities (decodeEntities s) = decodeEntities s ∧
    hasSub entNbsp (decodeEntities s) = false ∧
    hasSub entQuot (decodeEntities s) = false ∧
    hasSub entApos (decodeEntities s) = false ∧
    hasSub entAmp (decodeEntities s) = false := by
  obtain ⟨hn, hq, hp, ha⟩ := decodeEntities_clean h
  exact ⟨decodeEntities_idem h, hn, hq, hp, ha⟩

/-- C6 witness: the amended claim on a concrete entity-laden string. -/
theorem decode_idempotent_no_amp_witness :
    decodeEntities (decodeEntities "x&nbsp;y&quot;z&#39;w".data) =
      decodeEntities "x&nbsp;y&quot;z&#39;w".data ∧
    hasSub entNbsp (decodeEntities "x&nbsp;y&quot;z&#39;w".data) = false ∧
    hasSub entQuot (decodeEntities "x&nbsp;y&quot;z&#39;w".data) = false ∧
    hasSub entApos (decodeEntities "x&nbsp;y&quot;z&#39;w".data) = false ∧
    hasSub entAmp (decodeEntities "x&nbsp;y&quot;z&#39;w".data) = false :=
  decode_idempotent_no_amp "x&nbsp;y&quot;z&#39;w".data (by decide)

/-- C7 (confirmed).  The last-resort paragraph scan never returns a
paragraph containing both the positive keyword `performance` and the
negative keyword `mission`: its filter requires the absence of `mission`
outright, so such a paragraph is rejected and can never become the consensus
via that strategy. -/
theorem paragraph_negative_keyword_gate (ps : List (List Char)) (t : List Char)
    (h : consensusM5 ps = some t) :
    ¬(hasSub "performance".data (lowerL t) = true ∧
      hasSub "mission".data (lowerL t) = true) := by
  intro hand
  have hm := consensusParagraphOk_no_mission (consensusM5_ok h)
  rw [hand.2] at hm
  exact absurd hm (by simp)

/-- C7 witness: on a list whose first paragraph carries both keywords (and
is skipped) the scan returns the second paragraph, for which the gate
guarantee holds. -/
theorem paragraph_negative_keyword_gate_witness :
    ¬(hasSub "performance".data (lowerL c7good) = true ∧
      hasSub "mission".data (lowerL c7good) = true) :=
  paragraph_negative_keyword_gate [c7bad, c7good] c7good (by decide)

/-- C8 (confirmed).  The record builder is a total function of the fetched
document — the embedding of `get_movie_ratings` returns a structurally
complete `DetailRecord` for every `Doc`, empty or adversarial, with every
field present — and when no score signal matches anywhere the score fields
carry the `"N/A"` sentinel while the record is still produced (its url field
is the requested url). -/
theorem record_total_with_sentinels (doc : Doc) (url : List Char)
    (hc1 : criticM1 doc.html = none) (hc2 : criticM2 doc.html = none)
    (ha1 : audienceM1 doc.html = none) (ha2 : audienceM2 doc.html = none)
    (ha3 : audienceM3 doc.html = none) (ha4 : audienceM4 doc.html = none) :
    (get_movie_ratings doc url).critic_score = "N/A".data ∧
    (get_movie_ratings doc url).audience_score = "N/A".data ∧
    (get_movie_ratings doc url).url = url := by
  refine ⟨?_, ?_, rfl⟩
  · show extractCriticScore doc.html = "N/A".data
    unfold extractCriticScore
    rw [hc1, hc2]
    rfl
  · show extractAudienceScore doc.html = "N/A".data
    unfold extractAudienceScore
    rw [ha1, ha2, ha3, ha4]
    rfl

/-- C8 witness: the empty document has no score signals; the record is built,
with sentinel scores and the given url. -/
theorem record_total_with_sentinels_witness :
    (get_movie_ratings emptyDoc "u".data).critic_score = "N/A".data ∧
    (get_movie_ratings emptyDoc "u".data).audience_score = "N/A".data ∧
    (get_movie_ratings emptyDoc "u".data).url = "u".data :=
  record_total_with_sentinels emptyDoc "u".data rfl rfl rfl rfl rfl rfl

/-- C9 counterexample.  The claim says every emitted summary record carries
an absolute, non-empty url; but `url_elem.get('href', '')` yields the empty
string when the element has no `href`, the rewrite guard `if url` skips
empty strings, and the record is appended anyway — so a record with an empty
url is emitted. -/
theorem summary_url_empty_counterexample :
    (search_movie [c9item]).map SummaryRecord.url = [[]] ∧
    search_movie [c9item] ≠ [] := by
  refine ⟨rfl, by decide⟩

/-- C9 (amended).  Every emitted summary record's url is either empty (a
missing or empty `href`, left untouched) or starts with `"http"`: a nonempty
url not already starting with `http` gets the base origin prepended, the
rest are kept as they are. -/
theorem summary_url_empty_or_http (items : List Item) (r : SummaryRecord)
    (h : r ∈ search_movie items) :
    r.url = [] ∨ "http".data.isPrefixOf r.url = true := by
  obtain ⟨it, -, hit⟩ := List.mem_filterMap.mp h
  exact search_item_url hit

/-- C9 witness: the amended claim applied to the record emitted for the
container with a missing `href`. -/
theorem summary_url_empty_or_http_witness :
    ({ title := "Some Movie".data, year := "N/A".data, url := [] } : SummaryRecord).url = [] ∨
    "http".data.isPrefixOf
      ({ title := "Some Movie".data, year := "N/A".data, url := [] } : SummaryRecord).url =
        true :=
  summary_url_empty_or_http [c9item]
    { title := "Some Movie".data, year := "N/A".data, url := [] } (by decide)

/-- C10 counterexample.  The claim says a dedicated year element's stripped
text is copied verbatim and all lower-priority year strategies are skipped;
but the element's text is compared against the in-band sentinel `"N/A"`, so
an element reading exactly `N/A` falls through and the container-markup scan
supplies `2005` instead of the element text. -/
theorem year_element_na_counterexample :
    (search_movie [c10naItem]).map SummaryRecord.year = ["2005".data] ∧
    c10naItem.yearElemRaw = some "N/A".data ∧
    "2005".data ≠ "N/A".data := by
  refine ⟨rfl, rfl, by decide⟩

/-- C10 (amended).  For a container with a dedicated year element whose
stripped text differs from `"N/A"`, the resolved year is exactly that
stripped text with no validation applied — even when it is empty or
non-numeric — and the lower-priority strategies are skipped; an element whose
text strips to exactly `"N/A"` instead behaves as if absent. -/
theorem year_element_text_wins (it : Item) (raw url title : List Char)
    (he : it.yearElemRaw = some raw) (hne : pyStrip raw ≠ "N/A".data) :
    resolveItemYear it url title = pyStrip raw :=
  resolveItemYear_elem he hne

/-- C10 witness: an empty year element text is copied verbatim (the empty
year shows that no validation is applied), although the container markup and
the url would both supply a four-digit year. -/
theorem year_element_text_wins_witness :
    resolveItemYear c10item "/m/movie_2001".data "Movie".data = [] :=
  year_element_text_wins c10item [] "/m/movie_2001".data "Movie".data rfl (by decide)

end RT
